import Mathlib

/-!
Verification of the token-compiler core of the Airtime design system
(the token generation script `scripts/generate.js`: reference resolution,
OKLCH color conversion, CSS emission and assembly).

Modelling conventions:
* JSON/JS values are the inductive `Value`; token numerics in this repository
  are integers, so numbers are modelled by `Int` (`null` does not occur in
  token values and is not modelled).
* JS objects used as string-keyed maps are association lists; assignment
  semantics (last write wins) and spread-merge semantics are modelled
  explicitly.  Prototype-inherited keys of a JS object literal are outside
  the model: `map[k]` is `none` exactly when `k` was never assigned.
* The alias resolvers in the source recurse without any cycle guard, so they
  need not terminate.  They are modelled with an explicit fuel parameter:
  `none` means the computation did not complete within `fuel` recursion
  steps, and a result that is `none` for every fuel models divergence
  (in Node: call-stack exhaustion, not any distinct error value).
-/

namespace Airtime

/-- A JSON/JavaScript token value: string, (integer) number, boolean,
object (keyed record) or array. -/
inductive Value where
  | vstr : String → Value
  | vnum : Int → Value
  | vbool : Bool → Value
  | vobj : List (String × Value) → Value
  | varr : List Value → Value

/-- A flattened DTCG token as produced by `flattenDTCG`: the key chain from
the root, the `$value`, the `$type` tag and the `$extensions.mode` tag. -/
structure Token where
  path : List String
  val : Value
  type : Option String := none
  mode : Option String := none

/-- A reference map (`refMap` in the source): dot-joined path → value,
built by repeated JS object assignment. -/
abbrev RefMap := List (String × Value)

/-- Lookup in a reference map built by repeated assignment: the last
assignment to a key wins, so later bindings are searched first. -/
def lookupRef : RefMap → String → Option Value
  | [], _ => none
  | (k', v) :: rest, k =>
    match lookupRef rest k with
    | some r => some r
    | none => if k' = k then some v else none

mutual

/-- String conversion `String(v)` of JavaScript: numbers print in decimal,
booleans as `true`/`false`, plain objects as `[object Object]`, arrays as
their elements joined by commas. -/
def jsToString : Value → String
  | .vstr s => s
  | .vnum n => toString n
  | .vbool b => if b then "true" else "false"
  | .vobj _ => "[object Object]"
  | .varr xs => jsJoinComma xs

/-- Array stringification: `Array.prototype.join(',')`, each element
stringified recursively. -/
def jsJoinComma : List Value → String
  | [] => ""
  | [v] => jsToString v
  | v :: rest => jsToString v ++ "," ++ jsJoinComma rest

end

/-- The console message of the source's unresolved-reference warning,
`  Warning: unresolved reference {ref}`. -/
def warnMsg (ref : String) : String :=
  "  Warning: unresolved reference \x7b" ++ ref ++ "\x7d"

/-- The literal alias text `\x7bref\x7d` for a reference path. -/
def refText (ref : String) : String :=
  "\x7b" ++ ref ++ "\x7d"

/-- One match step of the global regex `\x7b([^\x7d]+)\x7d` at a position
just after an opening brace: the capture is the (nonempty) run of
non-closing-brace characters, provided a closing brace follows it. -/
def splitRef (cs : List Char) : Option (List Char × List Char) :=
  let interior := cs.takeWhile (fun c => c ≠ '\x7d')
  match cs.dropWhile (fun c => c ≠ '\x7d') with
  | [] => none
  | _ :: rest => if interior = [] then none else some (interior, rest)

/-- The full-value test of `deepResolveRefs`: the regex
`^\x7b([^\x7d]+)\x7d$`, i.e. the whole string is a single alias. -/
def fullRefMatch (s : String) : Option String :=
  match s.data with
  | '\x7b' :: rest =>
    let inner := rest.dropLast
    if rest.getLast? = some '\x7d' ∧ inner ≠ [] ∧ inner.all (fun c => c ≠ '\x7d')
    then some (String.mk inner) else none
  | _ => none

/-- The body of `resolveRefs` (source lines 1306–1319) on a string: scan for
`\x7bref\x7d` occurrences left to right; an occurrence whose path is absent
from the map warns and is kept literally; a found path is resolved by a
recursive `resolveRefs(String(resolved), refMap)` call and spliced in
stringified.  `fuel` bounds the number of scanning/resolution steps; `none`
models the source recursion not completing (the source has no cycle guard).
The second component collects the warning messages in emission order. -/
def replaceRefsF : Nat → RefMap → List Char → Option (String × List String)
  | 0, _, _ => none
  | _ + 1, _, [] => some ("", [])
  | fuel + 1, m, c :: cs =>
    if c = '\x7b' then
      match splitRef cs with
      | some (ref, rest) =>
        match lookupRef m (String.mk ref) with
        | none =>
          (replaceRefsF fuel m rest).map fun p =>
            (refText (String.mk ref) ++ p.1, warnMsg (String.mk ref) :: p.2)
        | some tv =>
          match replaceRefsF fuel m (jsToString tv).data with
          | none => none
          | some (rout, ws1) =>
            (replaceRefsF fuel m rest).map fun p => (rout ++ p.1, ws1 ++ p.2)
      | none => (replaceRefsF fuel m cs).map fun p => (String.singleton c ++ p.1, p.2)
    else (replaceRefsF fuel m cs).map fun p => (String.singleton c ++ p.1, p.2)

/-- The function `resolveRefs(value, refMap)` of the flat-alias (DTCG)
pipeline: strings get their embedded references replaced (stringified);
every non-string value passes through unchanged. -/
def resolveRefsF (fuel : Nat) (m : RefMap) : Value → Option (Value × List String)
  | .vstr s => (replaceRefsF fuel m s.data).map fun p => (.vstr p.1, p.2)
  | v => some (v, [])

/-- The function `deepResolveRefs(value, refMap)` of the three-tier
pipeline (source lines 1597–1622): a string that is exactly one
`\x7bref\x7d` resolves to the referenced value itself (recursively
resolved, native type preserved), warning and returning the literal text
when the path is absent; other strings fall back to `resolveRefs`; objects
resolve every field recursively; all other values (arrays included) pass
through unchanged. -/
def deepResolveRefsF : Nat → RefMap → Value → Option (Value × List String)
  | 0, _, _ => none
  | fuel + 1, m, .vstr s =>
    match fullRefMatch s with
    | some ref =>
      match lookupRef m ref with
      | none => some (.vstr s, [warnMsg ref])
      | some tv => deepResolveRefsF fuel m tv
    | none => (replaceRefsF fuel m s.data).map fun p => (.vstr p.1, p.2)
  | fuel + 1, m, .vobj fields =>
    (fields.foldr
      (fun kv acc =>
        match deepResolveRefsF fuel m kv.2, acc with
        | some (rv, ws1), some (rs, ws2) => some ((kv.1, rv) :: rs, ws1 ++ ws2)
        | _, _ => none)
      (some ([], []))).map fun p => (.vobj p.1, p.2)
  | _ + 1, _, v => some (v, [])

/-- The map `buildRefMap(allTokens)`: dot-joined path → `$value`, assigned
in token order (so a later token with the same path wins on lookup). -/
def buildRefMap (tokens : List Token) : RefMap :=
  tokens.map fun t => (String.intercalate "." t.path, t.val)

/-- The function `resolveTierTokens(tokens, refMap)`: new token records with
`$value` fully resolved (all other fields kept). -/
def resolveTierTokensF (fuel : Nat) : List Token → RefMap → Option (List Token × List String)
  | [], _ => some ([], [])
  | t :: rest, m =>
    match deepResolveRefsF fuel m t.val, resolveTierTokensF fuel rest m with
    | some (rv, ws1), some (rs, ws2) => some ({ t with val := rv } :: rs, ws1 ++ ws2)
    | _, _ => none

/-- The result of the three-tier resolution wiring, recording both
intermediate lookups for specification purposes. -/
structure ThreeTierResult where
  semLookup : RefMap
  resolvedSemantic : List Token
  compLookup : RefMap
  resolvedComponent : List Token
  generatorInput : List Token
  warnings : List String

/-- The resolution wiring of `buildThreeTierGenerators` (source lines
1896–1959): semantic tokens are resolved against the lookup built from the
primitive tokens alone; component tokens against the spread-merge
`\x7b...primitiveRefMap, ...buildRefMap(resolvedSemantic)\x7d` (modelled by
`++` under last-wins `lookupRef`, so resolved-semantic bindings shadow
primitive ones); the token list handed to the CSS generators
(`allResolved`) is resolved semantic followed by resolved component.  File
loading (`loadTierTokens`) is I/O and enters as the three token-list
parameters. -/
def buildThreeTier (fuel : Nat) (primitiveTokens rawSemanticTokens rawComponentTokens : List Token) :
    Option ThreeTierResult :=
  let primitiveRefMap := buildRefMap primitiveTokens
  match resolveTierTokensF fuel rawSemanticTokens primitiveRefMap with
  | none => none
  | some (resolvedSemantic, ws1) =>
    let semanticRefMap := primitiveRefMap ++ buildRefMap resolvedSemantic
    match resolveTierTokensF fuel rawComponentTokens semanticRefMap with
    | none => none
    | some (resolvedComponent, ws2) =>
      some { semLookup := primitiveRefMap
             resolvedSemantic := resolvedSemantic
             compLookup := semanticRefMap
             resolvedComponent := resolvedComponent
             generatorInput := resolvedSemantic ++ resolvedComponent
             warnings := ws1 ++ ws2 }

/-! ## Helper lemmas about the scanning primitives -/

theorem takeWhile_append_stop (p : Char → Bool) (xs : List Char) (y : Char) (ys : List Char)
    (hxs : ∀ c ∈ xs, p c = true) (hy : p y = false) :
    (xs ++ y :: ys).takeWhile p = xs := by
  induction xs with
  | nil => simp [List.takeWhile_cons, hy]
  | cons a rest ih =>
    have ha := hxs a (List.mem_cons_self a rest)
    simp [List.takeWhile_cons, ha, ih (fun c hc => hxs c (List.mem_cons_of_mem a hc))]

theorem dropWhile_append_stop (p : Char → Bool) (xs : List Char) (y : Char) (ys : List Char)
    (hxs : ∀ c ∈ xs, p c = true) (hy : p y = false) :
    (xs ++ y :: ys).dropWhile p = y :: ys := by
  induction xs with
  | nil => simp [List.dropWhile_cons, hy]
  | cons a rest ih =>
    have ha := hxs a (List.mem_cons_self a rest)
    simp [List.dropWhile_cons, ha, ih (fun c hc => hxs c (List.mem_cons_of_mem a hc))]

theorem splitRef_at_ref (P : String) (rest : List Char)
    (h1 : P.data ≠ []) (h2 : ∀ c ∈ P.data, c ≠ '\x7d') :
    splitRef (P.data ++ '\x7d' :: rest) = some (P.data, rest) := by
  unfold splitRef
  rw [takeWhile_append_stop _ _ _ _ (fun c hc => by simp [h2 c hc]) (by simp),
    dropWhile_append_stop _ _ _ _ (fun c hc => by simp [h2 c hc]) (by simp)]
  simp [h1]

theorem fullRefMatch_refText (P : String)
    (h1 : P.data ≠ []) (h2 : ∀ c ∈ P.data, c ≠ '\x7d') :
    fullRefMatch (refText P) = some P := by
  have hdata : (refText P).data = '\x7b' :: (P.data ++ ['\x7d']) := by
    simp [refText, String.data_append]
  unfold fullRefMatch
  rw [hdata]
  have hnotin : '\x7d' ∉ P.data := fun hc => h2 _ hc rfl
  simp [List.dropLast_concat, List.getLast?_concat, hnotin, h1]

/-- Resolving a full-value alias whose path is bound: `deepResolveRefs`
follows the reference and returns the recursive resolution of the
referenced value itself. -/
theorem deep_full_ref (m : RefMap) (P : String)
    (h1 : P.data ≠ []) (h2 : ∀ c ∈ P.data, c ≠ '\x7d')
    (v : Value) (hv : lookupRef m P = some v) (fuel : Nat) :
    deepResolveRefsF (fuel + 1) m (.vstr (refText P)) = deepResolveRefsF fuel m v := by
  simp only [deepResolveRefsF, fullRefMatch_refText P h1 h2, hv]

/-- Resolving a full-value alias whose path is absent: `deepResolveRefs`
warns and returns the literal alias text unchanged. -/
theorem deep_full_ref_missing (m : RefMap) (P : String)
    (h1 : P.data ≠ []) (h2 : ∀ c ∈ P.data, c ≠ '\x7d')
    (hv : lookupRef m P = none) (fuel : Nat) :
    deepResolveRefsF (fuel + 1) m (.vstr (refText P)) = some (.vstr (refText P), [warnMsg P]) := by
  simp only [deepResolveRefsF, fullRefMatch_refText P h1 h2, hv]

/-- Scanning over an embedded occurrence whose path is absent:
`resolveRefs`'s replace callback warns, keeps the literal `\x7bP\x7d` text
in place, and the scan continues after it. -/
theorem replace_unresolved_head (m : RefMap) (P : String) (rest : List Char) (fuel : Nat)
    (h1 : P.data ≠ []) (h2 : ∀ c ∈ P.data, c ≠ '\x7d')
    (hm : lookupRef m P = none) :
    replaceRefsF (fuel + 1) m ('\x7b' :: (P.data ++ '\x7d' :: rest))
      = (replaceRefsF fuel m rest).map fun p => (refText P ++ p.1, warnMsg P :: p.2) := by
  have hP : String.mk P.data = P := rfl
  simp only [replaceRefsF, if_pos rfl, splitRef_at_ref P rest h1 h2, hP, hm]
  simp

/-! ## C1: cyclic alias chains -/

/-- The cyclic reference map of the claim: path `A` aliases `\x7bB\x7d`
and path `B` aliases `\x7bA\x7d`. -/
def cycMap : RefMap := [("A", .vstr "\x7bB\x7d"), ("B", .vstr "\x7bA\x7d")]

theorem deep_cycle_stepAB (n : Nat) :
    deepResolveRefsF (n + 1) cycMap (.vstr "\x7bA\x7d")
      = deepResolveRefsF n cycMap (.vstr "\x7bB\x7d") := rfl

theorem deep_cycle_stepBA (n : Nat) :
    deepResolveRefsF (n + 1) cycMap (.vstr "\x7bB\x7d")
      = deepResolveRefsF n cycMap (.vstr "\x7bA\x7d") := rfl

theorem replace_cycle_stepAB (n : Nat) :
    replaceRefsF (n + 1) cycMap ("\x7bA\x7d" : String).data
      = match replaceRefsF n cycMap ("\x7bB\x7d" : String).data with
        | none => none
        | some (rout, ws1) =>
          (replaceRefsF n cycMap []).map fun p => (rout ++ p.1, ws1 ++ p.2) := rfl

theorem replace_cycle_stepBA (n : Nat) :
    replaceRefsF (n + 1) cycMap ("\x7bB\x7d" : String).data
      = match replaceRefsF n cycMap ("\x7bA\x7d" : String).data with
        | none => none
        | some (rout, ws1) =>
          (replaceRefsF n cycMap []).map fun p => (rout ++ p.1, ws1 ++ p.2) := rfl

/-- C1: on the cyclic alias chain A→B→A, both resolvers of the source
recurse unboundedly: no recursion budget suffices (the result is `none` for
every fuel), so resolution never terminates with a value and — the source
containing no cycle detection and no cyclic-reference error at all — no
distinct cyclic-reference error is raised; in Node the call stack is
exhausted instead.  This contradicts the claim (and confirms the spec's own
"required hardening beyond source behavior" note). -/
theorem cyclic_alias_resolution_diverges : ∀ fuel : Nat,
    deepResolveRefsF fuel cycMap (.vstr "\x7bA\x7d") = none ∧
    deepResolveRefsF fuel cycMap (.vstr "\x7bB\x7d") = none ∧
    resolveRefsF fuel cycMap (.vstr "\x7bA\x7d") = none ∧
    resolveRefsF fuel cycMap (.vstr "\x7bB\x7d") = none := by
  have core : ∀ fuel : Nat,
      deepResolveRefsF fuel cycMap (.vstr "\x7bA\x7d") = none ∧
      deepResolveRefsF fuel cycMap (.vstr "\x7bB\x7d") = none ∧
      replaceRefsF fuel cycMap ("\x7bA\x7d" : String).data = none ∧
      replaceRefsF fuel cycMap ("\x7bB\x7d" : String).data = none := by
    intro fuel
    induction fuel with
    | zero => exact ⟨rfl, rfl, rfl, rfl⟩
    | succ n ih =>
      obtain ⟨ihA, ihB, ihRA, ihRB⟩ := ih
      refine ⟨(deep_cycle_stepAB n).trans ihB, (deep_cycle_stepBA n).trans ihA, ?_, ?_⟩
      · rw [replace_cycle_stepAB n, ihRB]
      · rw [replace_cycle_stepBA n, ihRA]
  intro fuel
  obtain ⟨h1, h2, h3, h4⟩ := core fuel
  refine ⟨h1, h2, ?_, ?_⟩
  · simp only [resolveRefsF, h3, Option.map_none']
  · simp only [resolveRefsF, h4, Option.map_none']

/-! ## C2: full-value alias type preservation -/

/-- C2 counterexample: in the flat-alias (DTCG) pipeline, the token value
that is exactly the full-value alias `\x7ba\x7d`, with `a` bound to the
number 600, resolves to the string "600" — `resolveRefs` stringifies every
resolved reference — not to the number 600, so the referenced value's
native type is not preserved in that pipeline. -/
theorem flat_alias_full_value_stringifies :
    resolveRefsF 9 [("a", .vnum 600)] (.vstr "\x7ba\x7d") = some (.vstr "600", []) ∧
    Value.vstr "600" ≠ Value.vnum 600 :=
  ⟨rfl, fun h => Value.noConfusion h⟩

/-- C2 amended: in the three-tier pipeline, `deepResolveRefs` resolves a
full-value alias to the recursive resolution of the referenced value itself
(native type preserved: a number stays that number, a composite record
resolves to a composite record), while the flat-alias pipeline's
`resolveRefs` returns a string for every string input, so it cannot
preserve a non-string referenced type. -/
theorem full_value_alias_type_preservation
    (m : RefMap) (P : String) (fuel : Nat)
    (h1 : P.data ≠ []) (h2 : ∀ c ∈ P.data, c ≠ '\x7d') :
    (∀ v, lookupRef m P = some v →
      deepResolveRefsF (fuel + 1) m (.vstr (refText P)) = deepResolveRefsF fuel m v) ∧
    (∀ n : Int, lookupRef m P = some (.vnum n) →
      deepResolveRefsF (fuel + 2) m (.vstr (refText P)) = some (.vnum n, [])) ∧
    (∀ fields res, lookupRef m P = some (.vobj fields) →
      deepResolveRefsF (fuel + 2) m (.vstr (refText P)) = some res →
      ∃ fs, res.1 = Value.vobj fs) ∧
    (∀ s res, resolveRefsF fuel m (.vstr s) = some res → ∃ out, res.1 = Value.vstr out) := by
  refine ⟨fun v hv => deep_full_ref m P h1 h2 v hv fuel, fun n hn => ?_,
    fun fields res hf hres => ?_, fun s res hres => ?_⟩
  · rw [deep_full_ref m P h1 h2 _ hn (fuel + 1)]
    rfl
  · rw [deep_full_ref m P h1 h2 _ hf (fuel + 1)] at hres
    simp only [deepResolveRefsF, Option.map_eq_some'] at hres
    obtain ⟨p, _, hpe⟩ := hres
    exact ⟨p.1, by rw [← hpe]⟩
  · simp only [resolveRefsF, Option.map_eq_some'] at hres
    obtain ⟨p, _, hpe⟩ := hres
    exact ⟨p.1, by rw [← hpe]⟩

theorem full_value_alias_type_preservation_witness :
    (("a" : String).data ≠ [] ∧ ∀ c ∈ ("a" : String).data, c ≠ '\x7d') ∧
    deepResolveRefsF 3 [("a", Value.vnum 600)] (.vstr (refText "a"))
      = some (.vnum 600, []) :=
  ⟨⟨by decide, by decide⟩,
    (full_value_alias_type_preservation [("a", Value.vnum 600)] "a" 1
      (by decide) (by decide)).2.1 600 rfl⟩

/-! ## C3: unresolved references warn and keep the literal alias text -/

/-- C3: an alias occurrence whose path is absent from the lookup emits the
unresolved-reference warning and keeps the literal `\x7bP\x7d` text
unchanged — both when the whole value is the alias (`deepResolveRefs`
returns the alias text plus the warning) and for an embedded occurrence
(`resolveRefs` keeps the occurrence verbatim, records the warning, and
continues scanning the rest of the string) — and a result is produced
rather than the pipeline aborting. -/
theorem unresolved_reference_keeps_text_and_warns
    (m : RefMap) (P : String) (fuel : Nat) (rest : List Char)
    (h1 : P.data ≠ []) (h2 : ∀ c ∈ P.data, c ≠ '\x7d')
    (hm : lookupRef m P = none) :
    deepResolveRefsF (fuel + 1) m (.vstr (refText P)) = some (.vstr (refText P), [warnMsg P]) ∧
    replaceRefsF (fuel + 1) m ('\x7b' :: (P.data ++ '\x7d' :: rest))
      = (replaceRefsF fuel m rest).map fun p => (refText P ++ p.1, warnMsg P :: p.2) :=
  ⟨deep_full_ref_missing m P h1 h2 hm fuel, replace_unresolved_head m P rest fuel h1 h2 hm⟩

theorem unresolved_reference_keeps_text_and_warns_witness :
    lookupRef [] "missing.path" = none ∧
    deepResolveRefsF 1 [] (.vstr (refText "missing.path"))
      = some (.vstr (refText "missing.path"), [warnMsg "missing.path"]) ∧
    replaceRefsF 1 [] ('\x7b' :: (("missing.path" : String).data ++ '\x7d' :: []))
      = (replaceRefsF 0 [] []).map fun p =>
          (refText "missing.path" ++ p.1, warnMsg "missing.path" :: p.2) := by
  have h := unresolved_reference_keeps_text_and_warns [] "missing.path" 0 []
    (by decide) (by decide) rfl
  exact ⟨rfl, h.1, h.2⟩

/-! ## C9 and C10: three-tier lookup discipline -/

theorem lookupRef_append (a b : RefMap) (k : String) :
    lookupRef (a ++ b) k
      = match lookupRef b k with
        | some v => some v
        | none => lookupRef a k := by
  induction a with
  | nil => cases h : lookupRef b k <;> simp [lookupRef, h]
  | cons p rest ih =>
    obtain ⟨k', v'⟩ := p
    rw [List.cons_append]
    simp only [lookupRef]
    rw [ih]
    cases h : lookupRef b k
    · simp
    · simp

theorem lookupRef_mem (m : RefMap) (k : String) (v : Value)
    (h : lookupRef m k = some v) : (k, v) ∈ m := by
  induction m with
  | nil => simp [lookupRef] at h
  | cons p rest ih =>
    obtain ⟨k', v'⟩ := p
    simp only [lookupRef] at h
    cases h2 : lookupRef rest k with
    | some r =>
      rw [h2] at h
      injection h with h
      exact List.mem_cons_of_mem _ (ih (h ▸ h2))
    | none =>
      rw [h2] at h
      by_cases hk : k' = k
      · rw [if_pos hk] at h
        injection h with h
        subst hk
        subst h
        exact List.mem_cons_self _ _
      · rw [if_neg hk] at h
        exact absurd h (by simp)

theorem lookupRef_buildRefMap (tokens : List Token) (k : String) (v : Value)
    (h : lookupRef (buildRefMap tokens) k = some v) :
    ∃ t ∈ tokens, String.intercalate "." t.path = k ∧ t.val = v := by
  have hm := lookupRef_mem _ _ _ h
  simp only [buildRefMap, List.mem_map] at hm
  obtain ⟨t, ht, he⟩ := hm
  injection he with h1 h2
  exact ⟨t, ht, h1, h2⟩

/-- C9: in the three-tier pipeline, the lookup used to resolve the semantic
tier is built from the primitive tokens alone (every binding in it comes
from a primitive token, so a tier's own unresolved tokens never appear in
the lookup for that tier); the lookup used for the component tier is the
spread-merge of the primitive map and the map of the already-resolved
semantic tokens (every binding comes from a primitive or a resolved
semantic token, resolved-semantic bindings shadowing primitive ones); and
resolving the component tier never alters the already-resolved semantic
values. -/
theorem three_tier_lookup_discipline
    (fuel : Nat) (prims sems comps : List Token) (res : ThreeTierResult)
    (h : buildThreeTier fuel prims sems comps = some res) :
    res.semLookup = buildRefMap prims ∧
    (∀ k v, lookupRef res.semLookup k = some v →
      ∃ t ∈ prims, String.intercalate "." t.path = k ∧ t.val = v) ∧
    res.compLookup = buildRefMap prims ++ buildRefMap res.resolvedSemantic ∧
    (∀ k v, lookupRef res.compLookup k = some v →
      (∃ t ∈ res.resolvedSemantic, String.intercalate "." t.path = k ∧ t.val = v) ∨
      (∃ t ∈ prims, String.intercalate "." t.path = k ∧ t.val = v)) ∧
    (∀ comps' res', buildThreeTier fuel prims sems comps' = some res' →
      res'.resolvedSemantic = res.resolvedSemantic) := by
  simp only [buildThreeTier] at h
  cases hs : resolveTierTokensF fuel sems (buildRefMap prims) with
  | none => simp only [hs] at h; exact Option.noConfusion h
  | some pr =>
    obtain ⟨rs, ws1⟩ := pr
    simp only [hs] at h
    cases hc : resolveTierTokensF fuel comps (buildRefMap prims ++ buildRefMap rs) with
    | none => simp only [hc] at h; exact Option.noConfusion h
    | some pc =>
      obtain ⟨rc, ws2⟩ := pc
      simp only [hc] at h
      injection h with h
      subst h
      refine ⟨rfl, fun k v hk => lookupRef_buildRefMap prims k v hk, rfl, fun k v hk => ?_, ?_⟩
      · rw [lookupRef_append] at hk
        cases hb : lookupRef (buildRefMap rs) k with
        | some r =>
          rw [hb] at hk
          injection hk with hk
          exact Or.inl (lookupRef_buildRefMap rs k v (hk ▸ hb))
        | none =>
          rw [hb] at hk
          exact Or.inr (lookupRef_buildRefMap prims k v hk)
      · intro comps' res' h'
        simp only [buildThreeTier, hs] at h'
        cases hc' : resolveTierTokensF fuel comps' (buildRefMap prims ++ buildRefMap rs) with
        | none => simp only [hc'] at h'; exact Option.noConfusion h'
        | some pc' =>
          simp only [hc'] at h'
          injection h' with h'
          subst h'
          rfl

theorem three_tier_lookup_discipline_witness :
    buildThreeTier 12
        [{ path := ["color", "teal"], val := .vstr "#79DDE8" }]
        [{ path := ["color", "accent"], val := .vstr "\x7bcolor.teal\x7d" }]
        [{ path := ["button", "bg"], val := .vstr "\x7bcolor.accent\x7d" }]
      = some
        { semLookup := [("color.teal", .vstr "#79DDE8")]
          resolvedSemantic := [{ path := ["color", "accent"], val := .vstr "#79DDE8" }]
          compLookup := [("color.teal", .vstr "#79DDE8"), ("color.accent", .vstr "#79DDE8")]
          resolvedComponent := [{ path := ["button", "bg"], val := .vstr "#79DDE8" }]
          generatorInput := [{ path := ["color", "accent"], val := .vstr "#79DDE8" },
                             { path := ["button", "bg"], val := .vstr "#79DDE8" }]
          warnings := [] } ∧
    ({ semLookup := [("color.teal", .vstr "#79DDE8")]
       resolvedSemantic := [{ path := ["color", "accent"], val := .vstr "#79DDE8" }]
       compLookup := [("color.teal", .vstr "#79DDE8"), ("color.accent", .vstr "#79DDE8")]
       resolvedComponent := [{ path := ["button", "bg"], val := .vstr "#79DDE8" }]
       generatorInput := [{ path := ["color", "accent"], val := .vstr "#79DDE8" },
                          { path := ["button", "bg"], val := .vstr "#79DDE8" }]
       warnings := [] } : ThreeTierResult).semLookup
      = buildRefMap [{ path := ["color", "teal"], val := .vstr "#79DDE8" }] :=
  ⟨rfl,
    (three_tier_lookup_discipline 12
      [{ path := ["color", "teal"], val := .vstr "#79DDE8" }]
      [{ path := ["color", "accent"], val := .vstr "\x7bcolor.teal\x7d" }]
      [{ path := ["button", "bg"], val := .vstr "\x7bcolor.accent\x7d" }]
      _ rfl).1⟩

theorem resolveTierTokensF_paths (fuel : Nat) (toks : List Token) (m : RefMap)
    (out : List Token) (ws : List String)
    (h : resolveTierTokensF fuel toks m = some (out, ws)) :
    out.map (fun t => t.path) = toks.map (fun t => t.path) := by
  induction toks generalizing out ws with
  | nil =>
    simp only [resolveTierTokensF] at h
    injection h with h
    injection h with h1 h2
    simp [← h1]
  | cons t rest ih =>
    simp only [resolveTierTokensF] at h
    cases hd : deepResolveRefsF fuel m t.val with
    | none => simp only [hd] at h; exact Option.noConfusion h
    | some p =>
      obtain ⟨rv, ws1⟩ := p
      simp only [hd] at h
      cases hr : resolveTierTokensF fuel rest m with
      | none => simp only [hr] at h; exact Option.noConfusion h
      | some q =>
        obtain ⟨rs2, ws2⟩ := q
        simp only [hr] at h
        injection h with h
        injection h with h1 h2
        subst h1
        simp [List.map_cons, ih rs2 ws2 hr]

/-- C10: the token list handed to the CSS generators of the three-tier
pipeline is exactly the resolved semantic tier followed by the resolved
component tier — resolution preserves each token's path, so the emitted
paths are exactly the raw semantic and component paths and primitive-tier
tokens are never themselves passed to the generators. -/
theorem primitives_not_emitted
    (fuel : Nat) (prims sems comps : List Token) (res : ThreeTierResult)
    (h : buildThreeTier fuel prims sems comps = some res) :
    res.generatorInput = res.resolvedSemantic ++ res.resolvedComponent ∧
    res.generatorInput.map (fun t => t.path)
      = sems.map (fun t => t.path) ++ comps.map (fun t => t.path) := by
  simp only [buildThreeTier] at h
  cases hs : resolveTierTokensF fuel sems (buildRefMap prims) with
  | none => simp only [hs] at h; exact Option.noConfusion h
  | some pr =>
    obtain ⟨rs, ws1⟩ := pr
    simp only [hs] at h
    cases hc : resolveTierTokensF fuel comps (buildRefMap prims ++ buildRefMap rs) with
    | none => simp only [hc] at h; exact Option.noConfusion h
    | some pc =>
      obtain ⟨rc, ws2⟩ := pc
      simp only [hc] at h
      injection h with h
      subst h
      refine ⟨rfl, ?_⟩
      simp only [List.map_append]
      rw [resolveTierTokensF_paths fuel sems _ rs ws1 hs,
        resolveTierTokensF_paths fuel comps _ rc ws2 hc]

theorem primitives_not_emitted_witness :
    buildThreeTier 12
        [{ path := ["color", "teal"], val := .vstr "#79DDE8" }]
        [{ path := ["color", "accent"], val := .vstr "\x7bcolor.teal\x7d" }]
        [{ path := ["button", "bg"], val := .vstr "\x7bcolor.accent\x7d" }]
      = some
        { semLookup := [("color.teal", .vstr "#79DDE8")]
          resolvedSemantic := [{ path := ["color", "accent"], val := .vstr "#79DDE8" }]
          compLookup := [("color.teal", .vstr "#79DDE8"), ("color.accent", .vstr "#79DDE8")]
          resolvedComponent := [{ path := ["button", "bg"], val := .vstr "#79DDE8" }]
          generatorInput := [{ path := ["color", "accent"], val := .vstr "#79DDE8" },
                             { path := ["button", "bg"], val := .vstr "#79DDE8" }]
          warnings := [] } ∧
    ([{ path := ["color", "accent"], val := .vstr "#79DDE8" },
      { path := ["button", "bg"], val := .vstr "#79DDE8" }] : List Token).map (fun t => t.path)
      = ([{ path := ["color", "accent"], val := .vstr "\x7bcolor.teal\x7d" }] : List Token).map
          (fun t => t.path)
        ++ ([{ path := ["button", "bg"], val := .vstr "\x7bcolor.accent\x7d" }] : List Token).map
          (fun t => t.path) :=
  ⟨rfl,
    (primitives_not_emitted 12
      [{ path := ["color", "teal"], val := .vstr "#79DDE8" }]
      [{ path := ["color", "accent"], val := .vstr "\x7bcolor.teal\x7d" }]
      [{ path := ["button", "bg"], val := .vstr "\x7bcolor.accent\x7d" }]
      _ rfl).2⟩

/-! ## CSS emission primitives (shared by the generators and the assembler) -/

/-- The declaration-line template `cssVar(name, value)`:
two spaces, `--name: value;`. -/
def cssVar (name value : String) : String :=
  "  --" ++ name ++ ": " ++ value ++ ";"

/-- The legacy pixel formatter `pxVal(n)`: `0` stays unitless, any other
number gets a `px` suffix. -/
def pxVal (n : Int) : String :=
  if n = 0 then "0" else toString n ++ "px"

/-- The legacy `generateRadii`: one declaration per entry of the
`radius` object of `radii.json` (`Object.entries` iterates in insertion
order, modelled by the list order), each value formatted with `pxVal`. -/
def generateRadii (radius : List (String × Int)) : List String :=
  radius.map fun e => cssVar e.1 (pxVal e.2)

/-- Template-literal stringification of a JS field access `value.k`:
a missing field — or a field access on an array — prints as `undefined`. -/
def getFieldStr (v : Value) (k : String) : String :=
  match v with
  | .vobj fields =>
    match lookupRef fields k with
    | some x => jsToString x
    | none => "undefined"
  | _ => "undefined"

/-- JavaScript `typeof value === 'object'` for the values that occur in
token files (objects and arrays). -/
def isJsObjectLike : Value → Bool
  | .vobj _ => true
  | .varr _ => true
  | _ => false

/-- Element join `value.join(', ')` used for cubic-bezier arrays. -/
def joinCommaSpace : List Value → String
  | [] => ""
  | [v] => jsToString v
  | v :: rest => jsToString v ++ ", " ++ joinCommaSpace rest

/-- JavaScript `typeof value === 'number'`. -/
def isNumValue : Value → Bool
  | .vnum _ => true
  | _ => false

/-- The function `formatDTCGValue(value, type)` (source lines 1324–1341):
shadow composites become a space-joined geometry/color string, cubic-bezier
arrays a `cubic-bezier(...)` call, numeric durations get `ms`, and every
other value is stringified with `String(value)` — in particular a numeric
dimension such as a radius is printed as a bare number with no unit. -/
def formatDTCGValue (value : Value) (type : Option String) : String :=
  if type = some "shadow" ∧ isJsObjectLike value then
    getFieldStr value "offsetX" ++ " " ++ getFieldStr value "offsetY" ++ " " ++
      getFieldStr value "blur" ++ " " ++ getFieldStr value "spread" ++ " " ++
      getFieldStr value "color"
  else if type = some "cubicBezier" then
    match value with
    | .varr xs => "cubic-bezier(" ++ joinCommaSpace xs ++ ")"
    | v => jsToString v
  else if type = some "duration" ∧ isNumValue value then
    jsToString value ++ "ms"
  else jsToString value

/-- The DTCG `generateDTCGRadii` (source lines 1464–1475): one declaration
per flattened token, named by the last path segment (`t.path[t.path.length
- 1]`, `undefined` for an empty path), the value formatted by
`formatDTCGValue`. -/
def generateDTCGRadii (tokens : List Token) : List String :=
  tokens.map fun t => cssVar (t.path.getLast?.getD "undefined") (formatDTCGValue t.val t.type)

/-! ## C5: the radius-20 scenario -/

/-- C5 counterexample: a radius token with the literal numeric value 8 and
name segment `radius-20`, supplied through the DTCG ingestion (the
flat-alias and three-tier pipelines share `formatDTCGValue`), emits
`--radius-20: 8;` — `String(8)` with no `px` unit — not `--radius-20: 8px;`
as the claim requires for every ingestion format. -/
theorem dtcg_radius_numeric_has_no_px_unit :
    generateDTCGRadii [{ path := ["radius", "radius-20"], val := .vnum 8, type := some "dimension" }]
      = ["  --radius-20: 8;"] ∧
    ("  --radius-20: 8;" : String) ≠ "  --radius-20: 8px;" :=
  ⟨rfl, by decide⟩

/-- C5 amended: in the legacy format, the radii generator emits the
`radius-20 ↦ 8` entry exactly once as `--radius-20: 8px;` (`pxVal` appends
`px` to the nonzero numeric value), and no other radii entry that formats
differently can add or remove an occurrence; in the DTCG-based formats the
same numeric token instead emits the unitless `--radius-20: 8;`, so the
`8px` output there requires the token value to carry its own unit. -/
theorem legacy_radius_emitted_once_as_8px
    (pre post : List (String × Int))
    (hpre : ∀ e ∈ pre, cssVar e.1 (pxVal e.2) ≠ "  --radius-20: 8px;")
    (hpost : ∀ e ∈ post, cssVar e.1 (pxVal e.2) ≠ "  --radius-20: 8px;") :
    (generateRadii (pre ++ ("radius-20", (8 : Int)) :: post)).count "  --radius-20: 8px;" = 1 ∧
    generateDTCGRadii [{ path := ["radius", "radius-20"], val := .vnum 8, type := some "dimension" }]
      = ["  --radius-20: 8;"] := by
  refine ⟨?_, rfl⟩
  have h1 : (pre.map fun e => cssVar e.1 (pxVal e.2)).count "  --radius-20: 8px;" = 0 := by
    rw [List.count_eq_zero]
    intro hmem
    rw [List.mem_map] at hmem
    obtain ⟨e, he, heq⟩ := hmem
    exact hpre e he heq
  have h2 : (post.map fun e => cssVar e.1 (pxVal e.2)).count "  --radius-20: 8px;" = 0 := by
    rw [List.count_eq_zero]
    intro hmem
    rw [List.mem_map] at hmem
    obtain ⟨e, he, heq⟩ := hmem
    exact hpost e he heq
  have h3 : cssVar "radius-20" (pxVal 8) = "  --radius-20: 8px;" := rfl
  simp [generateRadii, List.count_append, List.count_cons, h1, h2, h3]

theorem legacy_radius_emitted_once_as_8px_witness :
    (generateRadii [("radius-0", 0), ("radius-20", 8), ("radius-full", 999)]).count
        "  --radius-20: 8px;" = 1 :=
  (legacy_radius_emitted_once_as_8px [("radius-0", 0)] [("radius-full", 999)]
    (by decide) (by decide)).1

/-! ## C4: determinism of the assembled stylesheet — data model

The assembler needs the declaration-line parser and the modern-CSS
generators, which are shared with C6 and defined below; the assembler
itself and the C4 theorems follow them. -/

/-- One OKLCH color entry produced by a color generator when the
color-space flag is on: the custom-property name, the hex fallback text,
the `oklch(...)` text, and the bucket (`"root"`, `"dark"` or `"light"`)
it belongs to. -/
structure OklchColor where
  propName : String
  hex : String
  oklch : String
  bucket : String

/-- The per-bucket result of one generator: the `root`/`light`/`dark` line
arrays, and the OKLCH color entries (the source generators only attach a
non-empty `oklchColors` array when the color-space flag is on). -/
structure GenResult where
  root : List String
  light : List String
  dark : List String
  oklchColors : List OklchColor := []

/-- The collection loop of `assemble`: for each named generator result, a
non-empty bucket contributes a `/* name */` comment line followed by its
lines. -/
def collectBucket (gens : List (String × GenResult)) (proj : GenResult → List String) :
    List String :=
  gens.foldl
    (fun acc nr =>
      if proj nr.2 = [] then acc
      else acc ++ ("\n  /* " ++ nr.1 ++ " */") :: proj nr.2)
    []

/-- The OKLCH collection of `assemble`'s loop: each generator result with
a non-empty `oklchColors` array appends its entries in order. -/
def collectOklchColors (gens : List (String × GenResult)) : List OklchColor :=
  gens.foldl
    (fun acc nr => if nr.2.oklchColors.isEmpty then acc else acc ++ nr.2.oklchColors)
    []

/-- JavaScript `Array.prototype.join('\n')`. -/
def joinNL : List String → String
  | [] => ""
  | [s] => s
  | s :: t :: rest => s ++ "\n" ++ joinNL (t :: rest)

/-- JavaScript `Array.prototype.join('\n\n')` (used for the `@property`
declaration block). -/
def joinNN : List String → String
  | [] => ""
  | [s] => s
  | s :: t :: rest => s ++ "\n\n" ++ joinNN (t :: rest)

/-- The `nestIndent` helper of `assemble`: join, split on newlines, indent
every non-empty line by two spaces, re-join. -/
def nestIndent (vars : List String) : String :=
  joinNL (((joinNL vars).splitOn "\n").map fun l => if l = "" then l else "  " ++ l)

/-! ## C6: the dual-theme light-dark collapse -/


/-- JavaScript's regex whitespace class `\s`. -/
def isJsWS (c : Char) : Bool :=
  c = ' ' || c = '\t' || c = '\n' || c = '\r' || c = '\x0b' || c = '\x0c' ||
    c = ' ' || c = ' ' || (' ' ≤ c && c ≤ ' ') ||
    c = ' ' || c = ' ' || c = ' ' || c = ' ' ||
    c = '　' || c = '﻿'

/-- The characters the regex `.` does not match without the `s` flag:
the line terminators. -/
def isJsLineTerm (c : Char) : Bool :=
  c = '\n' || c = '\r' || c = ' ' || c = ' '

/-- The tail matcher for `\s*(.+);$` on the text after the first colon:
the text must end in `;`; the capture is the part between the greedy (but
backtrackable) whitespace prefix and that final `;` — the part after the
maximal whitespace prefix when non-empty, else (all-whitespace text) the
final whitespace character alone — and must contain no line terminator. -/
def matchValueTail (rest : List Char) : Option (List Char) :=
  if rest.getLast? = some ';' then
    let before := rest.dropLast
    let tail := before.dropWhile isJsWS
    if tail ≠ [] then
      if tail.any isJsLineTerm then none else some tail
    else
      match before.getLast? with
      | some c => if isJsLineTerm c then none else some [c]
      | none => none
  else none

/-- The declaration-line regex `^\s*--([^:]+):\s*(.+);$` used by
`generateLightDarkVars` (and `generatePropertyDeclarations`): leading
whitespace, `--`, a non-empty colon-free name reaching the first colon,
that colon, then the value via `matchValueTail`. -/
def parseVarLine (line : String) : Option (String × String) :=
  match line.data.dropWhile isJsWS with
  | '-' :: '-' :: rest =>
    if rest.takeWhile (fun c => c ≠ ':') = [] then none
    else
      match rest.dropWhile (fun c => c ≠ ':') with
      | ':' :: rest2 =>
        match matchValueTail rest2 with
        | some v => some (String.mk (rest.takeWhile fun c => c ≠ ':'), String.mk v)
        | none => none
      | _ => none
  | _ => none

/-- JS object insert-or-assign: the first insertion fixes the position, a
later assignment updates the value in place.  (Key iteration order is
insertion order; the property names here are CSS custom-property names,
never array-index strings, so JS's integer-key reordering cannot arise.) -/
def upsertVar : List (String × String) → String → String → List (String × String)
  | [], k, v => [(k, v)]
  | (k', v') :: rest, k, v =>
    if k' = k then (k', v) :: rest else (k', v') :: upsertVar rest k v

/-- The map-building loops of `generateLightDarkVars`: every line matching
the declaration regex assigns `map[name] = value`. -/
def buildVarMap (lines : List String) : List (String × String) :=
  lines.foldl
    (fun m line =>
      match parseVarLine line with
      | some nv => upsertVar m nv.1 nv.2
      | none => m)
    []

/-- First-match lookup (the keys of an upsert-built map are unique). -/
def lookupVar : List (String × String) → String → Option String
  | [], _ => none
  | (k', v) :: rest, k => if k' = k then some v else lookupVar rest k

/-- The emitted collapse declaration
`  --prop: light-dark(lightValue, darkValue);` — light first, dark second. -/
def lightDarkLine (prop lval dval : String) : String :=
  "  --" ++ prop ++ ": light-dark(" ++ lval ++ ", " ++ dval ++ ");"

/-- JavaScript `s.startsWith(p)`: the characters of `p` are a prefix of
the characters of `s`. -/
def jsStartsWith (s p : String) : Bool :=
  p.data.isPrefixOf s.data

/-- The loop body of `generateLightDarkVars` for one dark-map entry: skip
the property when it is absent from the light map (the JS falsy guard
`!lightMap[prop]` coincides with absence because captured values are never
empty) or when it is not `color-`-prefixed; otherwise emit the collapse
declaration. -/
def emitLightDark (lightMap : List (String × String)) (pd : String × String) : Option String :=
  match lookupVar lightMap pd.1 with
  | none => none
  | some lval =>
    if jsStartsWith pd.1 "color-" then some (lightDarkLine pd.1 lval pd.2) else none

/-- The function `generateLightDarkVars(darkVars, lightVars)` (source lines
2085–2111): build name→value maps from both line lists, then — iterating
the dark map's keys — emit one root-level `light-dark()` declaration for
every `color-`-prefixed property present in both maps, light value first,
dark value second. -/
def generateLightDarkVars (darkVars lightVars : List String) : List String :=
  (buildVarMap darkVars).filterMap (emitLightDark (buildVarMap lightVars))

/-- Characterization of the loop body's successful emissions. -/
theorem emitLightDark_eq_some (lm : List (String × String)) (pd : String × String)
    (line : String) :
    emitLightDark lm pd = some line ↔
    ∃ lval', lookupVar lm pd.1 = some lval' ∧ jsStartsWith pd.1 "color-" = true ∧
      line = lightDarkLine pd.1 lval' pd.2 := by
  cases hlk : lookupVar lm pd.1 with
  | none =>
    simp only [emitLightDark, hlk]
    simp
  | some lval' =>
    simp only [emitLightDark, hlk]
    by_cases hsw : jsStartsWith pd.1 "color-" = true
    · rw [if_pos hsw]
      constructor
      · intro h
        simp only [Option.some.injEq] at h
        exact ⟨lval', rfl, hsw, h.symm⟩
      · rintro ⟨l2, hl2, _, hline⟩
        simp only [Option.some.injEq] at hl2
        rw [hline, hl2]
    · rw [if_neg hsw]
      constructor
      · intro h
        exact absurd h (by simp)
      · rintro ⟨l2, _, hsw2, _⟩
        exact absurd hsw2 hsw

theorem colonfree_append_inj (xs : List Char) (R : List Char) :
    ∀ (ys R' : List Char), (∀ c ∈ xs, c ≠ ':') → (∀ c ∈ ys, c ≠ ':') →
    xs ++ ':' :: R = ys ++ ':' :: R' → xs = ys ∧ R = R' := by
  induction xs with
  | nil =>
    intro ys R' _ hy h
    cases ys with
    | nil => simpa using h
    | cons c' rest' =>
      exfalso
      rw [List.nil_append, List.cons_append] at h
      injection h with h1 _
      exact hy c' (List.mem_cons_self _ _) h1.symm
  | cons c rest ih =>
    intro ys R' hx hy h
    cases ys with
    | nil =>
      exfalso
      rw [List.nil_append, List.cons_append] at h
      injection h with h1 _
      exact hx c (List.mem_cons_self _ _) h1
    | cons c' rest' =>
      rw [List.cons_append, List.cons_append] at h
      injection h with h1 h2
      obtain ⟨e1, e2⟩ := ih _ _ (fun d hd => hx d (List.mem_cons_of_mem _ hd))
        (fun d hd => hy d (List.mem_cons_of_mem _ hd)) h2
      exact ⟨by rw [h1, e1], e2⟩

/-- Distinct colon-free property names yield distinct collapse lines: the
name is delimited by the line's first colon. -/
theorem lightDarkLine_key_inj (k k' a b a' b' : String)
    (hk : ∀ c ∈ k.data, c ≠ ':') (hk' : ∀ c ∈ k'.data, c ≠ ':')
    (h : lightDarkLine k a b = lightDarkLine k' a' b') : k = k' := by
  have hdata := congrArg String.data h
  simp only [lightDarkLine, String.data_append, List.append_assoc, List.cons_append,
    List.nil_append, List.cons.injEq, true_and] at hdata
  have := colonfree_append_inj k.data _ k'.data _ hk hk' hdata
  exact congrArg String.mk this.1

theorem countP_filterMap (f : α → Option β) (p : β → Bool) (l : List α) :
    (l.filterMap f).countP p = l.countP fun a => ((f a).map p).getD false := by
  induction l with
  | nil => rfl
  | cons a rest ih =>
    cases hf : f a <;>
      simp [List.filterMap_cons, hf, List.countP_cons, ih]

theorem countP_congr_mem (l : List α) (p q : α → Bool)
    (h : ∀ a ∈ l, p a = q a) : l.countP p = l.countP q := by
  induction l with
  | nil => rfl
  | cons a rest ih =>
    rw [List.countP_cons, List.countP_cons, h a (List.mem_cons_self _ _),
      ih fun b hb => h b (List.mem_cons_of_mem _ hb)]

theorem countP_eq_one_of_nodup_mem [DecidableEq α] (l : List α) (x : α)
    (hnd : l.Nodup) (hx : x ∈ l) : l.countP (fun a => decide (a = x)) = 1 := by
  induction l with
  | nil => simp at hx
  | cons a rest ih =>
    rcases List.mem_cons.mp hx with h1 | h2
    · subst h1
      have hz : rest.countP (fun b => decide (b = x)) = 0 := by
        rw [List.countP_eq_zero]
        intro b hb
        simp only [decide_eq_true_eq]
        intro hbx
        exact (List.nodup_cons.mp hnd).1 (hbx ▸ hb)
      simp [List.countP_cons, hz]
    · have hne : a ≠ x := by
        intro he
        rw [← he] at h2
        exact (List.nodup_cons.mp hnd).1 h2
      simp [List.countP_cons, ih (List.nodup_cons.mp hnd).2 h2, hne]

theorem upsertVar_mem (m : List (String × String)) (k v : String) (e : String × String)
    (he : e ∈ upsertVar m k v) : e ∈ m ∨ e = (k, v) ∨ e.1 = k := by
  induction m with
  | nil =>
    simp only [upsertVar, List.mem_singleton] at he
    exact Or.inr (Or.inl he)
  | cons p rest ih =>
    obtain ⟨k', v'⟩ := p
    simp only [upsertVar] at he
    by_cases hkk : k' = k
    · rw [if_pos hkk] at he
      rcases List.mem_cons.mp he with h1 | h2
      · exact Or.inr (Or.inr (by rw [h1, hkk]))
      · exact Or.inl (List.mem_cons_of_mem _ h2)
    · rw [if_neg hkk] at he
      rcases List.mem_cons.mp he with h1 | h2
      · exact Or.inl (h1 ▸ List.mem_cons_self _ _)
      · rcases ih h2 with ha | hb | hc
        · exact Or.inl (List.mem_cons_of_mem _ ha)
        · exact Or.inr (Or.inl hb)
        · exact Or.inr (Or.inr hc)

theorem upsertVar_keys (m : List (String × String)) (k v : String) :
    (upsertVar m k v).map Prod.fst
      = if k ∈ m.map Prod.fst then m.map Prod.fst else m.map Prod.fst ++ [k] := by
  induction m with
  | nil => simp [upsertVar]
  | cons p rest ih =>
    obtain ⟨k', v'⟩ := p
    by_cases hkk : k' = k
    · subst hkk
      simp [upsertVar]
    · simp only [upsertVar, if_neg hkk, List.map_cons, ih]
      by_cases hmem : k ∈ rest.map Prod.fst
      · rw [if_pos hmem, if_pos (by simp [hmem])]
      · have hne : k ∉ k' :: rest.map Prod.fst := by
          simp only [List.mem_cons]
          rintro (h | h)
          · exact hkk h.symm
          · exact hmem h
        rw [if_neg hmem, if_neg hne, List.cons_append]

theorem upsertVar_nodup_keys (m : List (String × String)) (k v : String)
    (h : (m.map Prod.fst).Nodup) : ((upsertVar m k v).map Prod.fst).Nodup := by
  rw [upsertVar_keys]
  by_cases hmem : k ∈ m.map Prod.fst
  · rwa [if_pos hmem]
  · rw [if_neg hmem, List.nodup_append]
    refine ⟨h, List.nodup_singleton k, ?_⟩
    intro a ha hak
    rw [List.mem_singleton] at hak
    exact hmem (hak ▸ ha)

/-- The parsed name is captured by `[^:]+` stopped at the first colon, so
it contains no colon. -/
theorem parseVarLine_name_colonfree (line : String) (n v : String)
    (h : parseVarLine line = some (n, v)) : ∀ c ∈ n.data, c ≠ ':' := by
  unfold parseVarLine at h
  split at h
  · split at h
    · exact absurd h (by simp)
    · split at h
      · split at h
        · injection h with h
          injection h with h1 h2
          intro c hc
          rw [← h1] at hc
          have := List.mem_takeWhile_imp (hc : c ∈ _)
          simpa using this
        · exact absurd h (by simp)
      · exact absurd h (by simp)
  · exact absurd h (by simp)

/-- Every key of a built variable map is colon-free, and the key list has
no duplicates (the map is built by insert-or-assign). -/
theorem buildVarMap_invariant (lines : List String) :
    ((buildVarMap lines).map Prod.fst).Nodup ∧
    ∀ e ∈ buildVarMap lines, ∀ c ∈ (e.1 : String).data, c ≠ ':' := by
  suffices h : ∀ m : List (String × String), (m.map Prod.fst).Nodup →
      (∀ e ∈ m, ∀ c ∈ (e.1 : String).data, c ≠ ':') →
      ((lines.foldl (fun m line =>
          match parseVarLine line with
          | some nv => upsertVar m nv.1 nv.2
          | none => m) m).map Prod.fst).Nodup ∧
      ∀ e ∈ lines.foldl (fun m line =>
          match parseVarLine line with
          | some nv => upsertVar m nv.1 nv.2
          | none => m) m, ∀ c ∈ (e.1 : String).data, c ≠ ':' by
    exact h [] (by simp) (by simp)
  induction lines with
  | nil => intro m h1 h2; exact ⟨h1, h2⟩
  | cons line rest ih =>
    intro m h1 h2
    simp only [List.foldl_cons]
    cases hp : parseVarLine line with
    | none => exact ih m h1 h2
    | some nv =>
      refine ih _ (upsertVar_nodup_keys m nv.1 nv.2 h1) ?_
      intro e he
      rcases upsertVar_mem m nv.1 nv.2 e he with ha | hb | hc
      · exact h2 e ha
      · rw [hb]
        exact parseVarLine_name_colonfree line nv.1 nv.2 hp
      · rw [hc]
        exact parseVarLine_name_colonfree line nv.1 nv.2 hp

theorem lookupVar_mem (m : List (String × String)) (k v : String)
    (h : lookupVar m k = some v) : (k, v) ∈ m := by
  induction m with
  | nil => exact absurd h (by simp [lookupVar])
  | cons p rest ih =>
    obtain ⟨k', v'⟩ := p
    simp only [lookupVar] at h
    by_cases hk : k' = k
    · rw [if_pos hk] at h
      injection h with h
      subst hk
      subst h
      exact List.mem_cons_self _ _
    · rw [if_neg hk] at h
      exact List.mem_cons_of_mem _ (ih h)

theorem lookupVar_of_mem (m : List (String × String)) (k v : String)
    (hnd : (m.map Prod.fst).Nodup) (hm : (k, v) ∈ m) : lookupVar m k = some v := by
  induction m with
  | nil => simp at hm
  | cons p rest ih =>
    obtain ⟨k', v'⟩ := p
    rcases List.mem_cons.mp hm with h1 | h2
    · injection h1 with e1 e2
      subst e1
      subst e2
      simp [lookupVar]
    · have hk : k' ≠ k := by
        intro hkk
        subst hkk
        have hkm : k' ∈ rest.map Prod.fst := List.mem_map.mpr ⟨(k', v), h2, rfl⟩
        exact (List.nodup_cons.mp (by simpa using hnd)).1 hkm
      simp only [lookupVar, if_neg hk]
      exact ih (List.nodup_cons.mp (by simpa using hnd)).2 h2

/-- With unique keys, two bindings of the same key agree. -/
theorem nodup_keys_val_unique (m : List (String × String)) (k a b : String)
    (hnd : (m.map Prod.fst).Nodup) (ha : (k, a) ∈ m) (hb : (k, b) ∈ m) : a = b := by
  have h1 := lookupVar_of_mem m k a hnd ha
  have h2 := lookupVar_of_mem m k b hnd hb
  rw [h1] at h2
  injection h2

/-- C6: in the dual-theme collapse, a `color-`-prefixed property present
in both the dark map and the light map yields exactly one output
declaration, namely `--prop: light-dark(lightValue, darkValue);` with the
light value as the first argument and the dark value as the second, and
any output line declaring that property is that one line; a property
absent from either map yields no output line at all. -/
theorem light_dark_collapse_exact (dv lv : List String) (prop : String)
    (hcolor : jsStartsWith prop "color-" = true)
    (hpcf : ∀ c ∈ prop.data, c ≠ ':') :
    (∀ dval lval, lookupVar (buildVarMap dv) prop = some dval →
      lookupVar (buildVarMap lv) prop = some lval →
      (generateLightDarkVars dv lv).countP
          (fun l => decide (l = lightDarkLine prop lval dval)) = 1 ∧
      lightDarkLine prop lval dval ∈ generateLightDarkVars dv lv ∧
      (∀ line ∈ generateLightDarkVars dv lv, ∀ a b, line = lightDarkLine prop a b →
        line = lightDarkLine prop lval dval)) ∧
    ((lookupVar (buildVarMap dv) prop = none ∨ lookupVar (buildVarMap lv) prop = none) →
      ∀ line ∈ generateLightDarkVars dv lv, ∀ a b, line ≠ lightDarkLine prop a b) := by
  obtain ⟨hndd, hcfd⟩ := buildVarMap_invariant dv
  have hnd_entries : (buildVarMap dv).Nodup := List.Nodup.of_map Prod.fst hndd
  constructor
  · intro dval lval hd hl
    have hmem : (prop, dval) ∈ buildVarMap dv := lookupVar_mem _ _ _ hd
    have hemit_target :
        emitLightDark (buildVarMap lv) (prop, dval) = some (lightDarkLine prop lval dval) := by
      rw [emitLightDark_eq_some]
      exact ⟨lval, hl, hcolor, rfl⟩
    have hline_mem : lightDarkLine prop lval dval ∈ generateLightDarkVars dv lv := by
      simp only [generateLightDarkVars, List.mem_filterMap]
      exact ⟨(prop, dval), hmem, hemit_target⟩
    have honly : ∀ line ∈ generateLightDarkVars dv lv, ∀ a b,
        line = lightDarkLine prop a b → line = lightDarkLine prop lval dval := by
      intro line hline a b heq
      simp only [generateLightDarkVars, List.mem_filterMap] at hline
      obtain ⟨pd, hpd, hemit⟩ := hline
      obtain ⟨lval', hlk, hsw, hline_eq⟩ := (emitLightDark_eq_some _ _ _).mp hemit
      have hkey : pd.1 = prop :=
        lightDarkLine_key_inj pd.1 prop lval' pd.2 a b (hcfd pd hpd) hpcf
          (by rw [← hline_eq, heq])
      have hpd_pair : (prop, pd.2) ∈ buildVarMap dv := by
        have hpd' : pd = (pd.1, pd.2) := rfl
        rw [hpd', hkey] at hpd
        exact hpd
      have hval : pd.2 = dval := nodup_keys_val_unique _ prop pd.2 dval hndd hpd_pair hmem
      have hlv : lval' = lval := by
        rw [hkey, hl] at hlk
        simp only [Option.some.injEq] at hlk
        exact hlk.symm
      rw [hline_eq, hkey, hval, hlv]
    refine ⟨?_, hline_mem, honly⟩
    simp only [generateLightDarkVars]
    rw [countP_filterMap]
    rw [countP_congr_mem _ _ (fun pd => decide (pd = (prop, dval))) ?_]
    · exact countP_eq_one_of_nodup_mem _ _ hnd_entries hmem
    · intro pd hpd
      by_cases hpde : pd = (prop, dval)
      · subst hpde
        rw [hemit_target]
        simp
      · show (Option.map (fun l => decide (l = lightDarkLine prop lval dval))
            (emitLightDark (buildVarMap lv) pd)).getD false = decide (pd = (prop, dval))
        rw [decide_eq_false hpde]
        cases he : emitLightDark (buildVarMap lv) pd with
        | none => simp
        | some line' =>
          obtain ⟨lval', hlk, hsw, hline_eq⟩ := (emitLightDark_eq_some _ _ _).mp he
          simp only [Option.map_some', Option.getD_some]
          apply decide_eq_false
          intro heq
          have hkey : pd.1 = prop :=
            lightDarkLine_key_inj pd.1 prop lval' pd.2 lval dval (hcfd pd hpd) hpcf
              (by rw [← hline_eq, heq])
          have hpd_pair : (prop, pd.2) ∈ buildVarMap dv := by
            have hpd' : pd = (pd.1, pd.2) := rfl
            rw [hpd', hkey] at hpd
            exact hpd
          have hval : pd.2 = dval := nodup_keys_val_unique _ prop pd.2 dval hndd hpd_pair hmem
          apply hpde
          have hpd' : pd = (pd.1, pd.2) := rfl
          rw [hpd', hkey, hval]
  · intro habs line hline a b heq
    simp only [generateLightDarkVars, List.mem_filterMap] at hline
    obtain ⟨pd, hpd, hemit⟩ := hline
    obtain ⟨lval', hlk, hsw, hline_eq⟩ := (emitLightDark_eq_some _ _ _).mp hemit
    have hkey : pd.1 = prop :=
      lightDarkLine_key_inj pd.1 prop lval' pd.2 a b (hcfd pd hpd) hpcf
        (by rw [← hline_eq, heq])
    rcases habs with hdn | hln
    · have hpd_pair : (prop, pd.2) ∈ buildVarMap dv := by
        have hpd' : pd = (pd.1, pd.2) := rfl
        rw [hpd', hkey] at hpd
        exact hpd
      have hsome := lookupVar_of_mem _ prop pd.2 hndd hpd_pair
      rw [hdn] at hsome
      exact Option.noConfusion hsome
    · rw [hkey, hln] at hlk
      exact Option.noConfusion hlk

theorem light_dark_collapse_exact_witness :
    jsStartsWith "color-x" "color-" = true ∧
    lookupVar (buildVarMap ["  --color-x: #111;"]) "color-x" = some "#111" ∧
    lookupVar (buildVarMap ["  --color-x: #eee;"]) "color-x" = some "#eee" ∧
    (generateLightDarkVars ["  --color-x: #111;"] ["  --color-x: #eee;"]).countP
        (fun l => decide (l = lightDarkLine "color-x" "#eee" "#111")) = 1 := by
  refine ⟨by decide, rfl, rfl, ?_⟩
  exact ((light_dark_collapse_exact ["  --color-x: #111;"] ["  --color-x: #eee;"] "color-x"
    (by decide) (by decide)).1 "#111" "#eee" rfl rfl).1

/-! ## C4 continued: the flag-gated generators and the assembler -/

/-- Contiguous-subsequence test on character lists, for JavaScript
`String.prototype.includes`. -/
def listHasSub (sub : List Char) : List Char → Bool
  | [] => sub.isEmpty
  | c :: cs => sub.isPrefixOf (c :: cs) || listHasSub sub cs

/-- JavaScript `s.includes(sub)`. -/
def jsIncludes (s sub : String) : Bool :=
  listHasSub sub.data s.data

/-- The alpha-variant regex test (the anchored pattern `-([\d]+)$`
applied with `.test`): `s` ends in `-` followed by one or more decimal
digits. -/
def endsWithDashDigits (s : String) : Bool :=
  let rev := s.data.reverse
  let digits := rev.takeWhile fun c => c.isDigit
  if digits.isEmpty then false
  else
    match rev.dropWhile (fun c => c.isDigit) with
    | '-' :: _ => true
    | _ => false

/-- `isAccentOrActionColor(propName)` (source lines 1977–1992): the
`color-` properties that get derived states — excluding shadow colors,
overlays and numeric alpha-variant suffixes, including `accent-*` and the
non-white/black `modeless-*` action colors. -/
def isAccentOrActionColor (propName : String) : Bool :=
  if !jsStartsWith propName "color-" then false
  else
    let rest := String.mk (propName.data.drop 6)
    if jsStartsWith rest "shadow-" then false
    else if jsIncludes rest "overlay" then false
    else if endsWithDashDigits rest then false
    else if jsStartsWith rest "accent-" then true
    else if jsStartsWith rest "modeless-" && !jsIncludes rest "white"
        && !jsIncludes rest "black" then true
    else false

/-- The color-restricted declaration regex `^\s*--(color-[^:]+):\s*(.+);$`
of the color-mix and relative-color loops: it succeeds exactly when the
general declaration regex succeeds with a captured name of the form
`color-` followed by at least one more colon-free character, with the
same two captures. -/
def parseColorVarLine (line : String) : Option (String × String) :=
  match parseVarLine line with
  | some nv => if jsStartsWith nv.1 "color-" && nv.1 ≠ "color-" then some nv else none
  | none => none

/-- The shared `processVars` loop shape of `generateColorMixVars` and
`generateRelativeColorVars`: for every line whose name matches the color
declaration regex and passes the accent/action filter, push the two lines
`mk` makes for that name. -/
def accentDerivedLines (mk : String → List String) (vars : List String) : List String :=
  vars.flatMap fun line =>
    match parseColorVarLine line with
    | some nv => if isAccentOrActionColor nv.1 then mk nv.1 else []
    | none => []

/-- The `\x7b root, dark, light \x7d` line-array triple returned by
`generateColorMixVars` and `generateRelativeColorVars`. -/
structure MixVars where
  root : List String
  dark : List String
  light : List String

/-- `generateColorMixVars(rootVars, darkVars, lightVars)` (source lines
2054–2078): hover (90% toward white) and active (80% toward black)
derived states for each accent/action color, per bucket. -/
def generateColorMixVars (rootVars darkVars lightVars : List String) : MixVars :=
  let mk := fun p =>
    ["  --" ++ p ++ "-hover: color-mix(in oklch, var(--" ++ p ++ ") 90%, white);",
     "  --" ++ p ++ "-active: color-mix(in oklch, var(--" ++ p ++ ") 80%, black);"]
  { root := accentDerivedLines mk rootVars
    dark := accentDerivedLines mk darkVars
    light := accentDerivedLines mk lightVars }

/-- `generateRelativeColorVars(rootVars, darkVars, lightVars)` (source
lines 2119–2143): lighter (`l * 1.2`) and darker (`l * 0.8`) relative
color variants for each accent/action color, per bucket. -/
def generateRelativeColorVars (rootVars darkVars lightVars : List String) : MixVars :=
  let mk := fun p =>
    ["  --" ++ p ++ "-lighter: oklch(from var(--" ++ p ++ ") calc(l * 1.2) c h);",
     "  --" ++ p ++ "-darker: oklch(from var(--" ++ p ++ ") calc(l * 0.8) c h);"]
  { root := accentDerivedLines mk rootVars
    dark := accentDerivedLines mk darkVars
    light := accentDerivedLines mk lightVars }

/-- The `inferSyntax(name, value)` helper of
`generatePropertyDeclarations` (source lines 2011–2024; the value
argument is unused there too): the `@property` type descriptor inferred
from the name's prefix, `none` for untypeable tokens. -/
def inferPropType (name _value : String) : Option String :=
  if jsStartsWith name "color-" then some "<color>"
  else if jsStartsWith name "shadow-" then none
  else if jsStartsWith name "size-" || jsStartsWith name "space-" ||
      jsStartsWith name "border-width-" || jsStartsWith name "blur-" then some "<length>"
  else if jsStartsWith name "radius-" then some "<length>"
  else if jsStartsWith name "font-size-" || jsStartsWith name "line-height-" then
    some "<length>"
  else if jsStartsWith name "opacity-" then some "<number>"
  else if jsStartsWith name "z-" then some "<integer>"
  else if jsStartsWith name "font-weight-" then some "<number>"
  else if jsStartsWith name "duration-" then some "<time>"
  else none

/-- One emitted `@property` rule (the template at source lines
2035–2041). -/
def propertyRule (name syn value : String) : String :=
  "@property --" ++ name ++ " \x7b\n  syntax: \x27" ++ syn ++ "\x27;\n" ++
    "  inherits: true;\n  initial-value: " ++ value ++ ";\n\x7d"

/-- The loop of `generatePropertyDeclarations`: parse each line, skip
names already emitted, skip untypeable names (which are not added to the
seen set), otherwise emit the rule and remember the name. -/
def propertyDeclLoop : List String → List String → List String
  | [], _ => []
  | line :: rest, seen =>
    match parseVarLine line with
    | none => propertyDeclLoop rest seen
    | some nv =>
      if seen.contains nv.1 then propertyDeclLoop rest seen
      else
        match inferPropType nv.1 nv.2 with
        | none => propertyDeclLoop rest seen
        | some syn => propertyRule nv.1 syn nv.2 :: propertyDeclLoop rest (nv.1 :: seen)

/-- `generatePropertyDeclarations(rootVars, darkVars)` (source lines
1999–2047): one typed `@property` rule per first occurrence of each
typeable custom property across the root and dark line lists. -/
def generatePropertyDeclarations (rootVars darkVars : List String) : List String :=
  propertyDeclLoop (rootVars ++ darkVars) []

/-- The two lines emitted per OKLCH color entry inside a rule of the
OKLCH `@supports` section: the `oklch(...)` value and the `-hex`
fallback, at the given indent. -/
def oklchColorLines (indent : String) (cs : List OklchColor) : List String :=
  cs.flatMap fun c =>
    [indent ++ "--" ++ c.propName ++ ": " ++ c.oklch ++ ";",
     indent ++ "--" ++ c.propName ++ "-hex: " ++ c.hex ++ ";"]

/-- The `@supports (color: oklch(0% 0 0))` block (source lines
2204–2260): the collected entries grouped by bucket into
`:root`/`.dark`/`.light` rules and the two OS-preference media fallbacks,
with empty buckets omitted (the source appends each entry to
`byBucket[c.bucket]`, and generators only produce the three bucket
names), newline-joined. -/
def oklchSupportsBlock (allOklchColors : List OklchColor) : String :=
  let rootB := allOklchColors.filter fun c => c.bucket = "root"
  let darkB := allOklchColors.filter fun c => c.bucket = "dark"
  let lightB := allOklchColors.filter fun c => c.bucket = "light"
  joinNL
    (["@supports (color: oklch(0% 0 0)) \x7b"]
      ++ (if rootB.isEmpty then []
          else "  :root \x7b" :: oklchColorLines "    " rootB ++ ["  \x7d\n"])
      ++ (if darkB.isEmpty then []
          else "  .dark \x7b" :: oklchColorLines "    " darkB ++ ["  \x7d\n"])
      ++ (if lightB.isEmpty then []
          else "  .light \x7b" :: oklchColorLines "    " lightB ++ ["  \x7d\n"])
      ++ (if darkB.isEmpty then []
          else ["  @media (prefers-color-scheme: dark) \x7b",
                "    :root:not(.dark):not(.light) \x7b"]
            ++ oklchColorLines "      " darkB ++ ["    \x7d", "  \x7d\n"])
      ++ (if lightB.isEmpty then []
          else ["  @media (prefers-color-scheme: light) \x7b",
                "    :root:not(.dark):not(.light) \x7b"]
            ++ oklchColorLines "      " lightB ++ ["    \x7d", "  \x7d"])
      ++ ["\x7d"])

/-- The four sections pushed for the OKLCH block when the color-space
flag is on and colors were collected (source lines 2192–2262): a blank
separator, two comment lines, and the joined `@supports` block. -/
def oklchSectionList (oklchEnabled : Bool) (allOklchColors : List OklchColor) :
    List String :=
  if oklchEnabled && !allOklchColors.isEmpty then
    ["",
     "/* OKLCH color space — perceptually uniform, wider gamut */",
     "/* Hex fallbacks above; OKLCH overrides below for supporting browsers */",
     oklchSupportsBlock allOklchColors]
  else []

/-- The shared `@supports` rule layout of the color-mix and
relative-color sections (source lines 2284–2302 and 2328–2345): the given
opening line, then `:root`/`.dark`/`.light` sub-rules for the non-empty
buckets (the root and dark closers carry a blank line, the light closer
does not), then the closing brace, newline-joined. -/
def supportsBlockFor (opening : String) (mv : MixVars) : String :=
  joinNL
    ([opening]
      ++ (if mv.root.isEmpty then []
          else "  :root \x7b" :: mv.root.map (fun l => "  " ++ l) ++ ["  \x7d\n"])
      ++ (if mv.dark.isEmpty then []
          else "  .dark \x7b" :: mv.dark.map (fun l => "  " ++ l) ++ ["  \x7d\n"])
      ++ (if mv.light.isEmpty then []
          else "  .light \x7b" :: mv.light.map (fun l => "  " ++ l) ++ ["  \x7d"])
      ++ ["\x7d"])

/-- The sections pushed for the modern-CSS block (source lines 2264–2348)
when its flag is on: a blank separator and two fixed comments, then —
each guarded by its content being non-empty — the `@property`
declarations, the color-mix `@supports` rule, the light-dark `@supports`
rule, and (only when the color-space flag is also on) the relative-color
`@supports` rule. -/
def modernSectionList (oklchEnabled modernEnabled : Bool)
    (rootVars darkVars lightVars : List String) : List String :=
  if modernEnabled then
    let propertyDecls := generatePropertyDeclarations rootVars darkVars
    let colorMix := generateColorMixVars rootVars darkVars lightVars
    let hasColorMix :=
      !colorMix.root.isEmpty || !colorMix.dark.isEmpty || !colorMix.light.isEmpty
    let lightDarkLines := generateLightDarkVars darkVars lightVars
    let relColor := generateRelativeColorVars rootVars darkVars lightVars
    let hasRelColor :=
      !relColor.root.isEmpty || !relColor.dark.isEmpty || !relColor.light.isEmpty
    ["",
     "/* Modern CSS — progressive enhancement */",
     "/* Browser support: Chrome 111+, Safari 16.4+, Firefox 113+ */"]
    ++ (if propertyDecls.isEmpty then []
        else ["",
              "/* @property — typed custom properties (enables transitions, validation) */",
              joinNN propertyDecls])
    ++ (if hasColorMix then
          ["",
           "/* color-mix() — runtime hover/active derived states */",
           supportsBlockFor "@supports (color: color-mix(in oklch, red, blue)) \x7b" colorMix]
        else [])
    ++ (if lightDarkLines.isEmpty then []
        else ["",
              "/* light-dark() — single-property theme values (requires color-scheme on :root) */",
              joinNL (["@supports (color: light-dark(red, blue)) \x7b",
                       "  :root \x7b",
                       "    color-scheme: light dark;"]
                ++ lightDarkLines.map (fun l => "  " ++ l) ++ ["  \x7d", "\x7d"])])
    ++ (if oklchEnabled && hasRelColor then
          ["",
           "/* Relative color syntax — OKLCH shade generation */",
           supportsBlockFor "@supports (color: oklch(from red l c h)) \x7b" relColor]
        else [])
  else []

/-- Everything `assemble` pushes after the three header-comment lines:
the `:root`, `.dark` and `.light` blocks, the OS-preference fallback
blocks, and the flag-gated OKLCH and modern-CSS section lists; a function
of the two flags and the generator results only, with no date
parameter. -/
def bodySections (oklchEnabled modernEnabled : Bool)
    (gens : List (String × GenResult)) : List String :=
  let rootVars := collectBucket gens fun r => r.root
  let lightVars := collectBucket gens fun r => r.light
  let darkVars := collectBucket gens fun r => r.dark
  (":root \x7b" ++ joinNL rootVars ++ "\n\x7d\n")
    :: (".dark \x7b" ++ joinNL darkVars ++ "\n\x7d\n")
    :: (".light \x7b" ++ joinNL lightVars ++ "\n\x7d\n")
    :: "/* OS preference fallback (when no .dark/.light class is set) */"
    :: ("@media (prefers-color-scheme: dark) \x7b\n  :root:not(.dark):not(.light) \x7b"
        ++ nestIndent darkVars ++ "\n  \x7d\n\x7d\n")
    :: ("@media (prefers-color-scheme: light) \x7b\n  :root:not(.dark):not(.light) \x7b"
        ++ nestIndent lightVars ++ "\n  \x7d\n\x7d")
    :: (oklchSectionList oklchEnabled (collectOklchColors gens)
        ++ modernSectionList oklchEnabled modernEnabled rootVars darkVars lightVars)

/-- The assembler (source lines 2149–2351) with both generation flags as
parameters — the color-space flag gates the `@supports (color: oklch(0% 0 0))`
block and the relative-color sub-section, the modern-CSS flag gates the
progressive-enhancement section: the fixed header comments — including
the `/* Generated: <date> */` line, whose date the source takes from
`new Date()` and which enters here as the `today` parameter — followed by
the body sections, joined with newlines. -/
def assemble (oklchEnabled modernEnabled : Bool) (today : String)
    (gens : List (String × GenResult)) : String :=
  joinNL
    ("/* tokens.css — Generated from v2/tokens/*.json */"
      :: "/* Do not edit manually. Run: node scripts/generate.js */"
      :: ("/* Generated: " ++ today ++ " */\n")
      :: bodySections oklchEnabled modernEnabled gens)

/-- The three fixed header-comment lines of `assemble`, the only place
the current date enters the output. -/
def assembleDateHeader (today : String) : String :=
  "/* tokens.css — Generated from v2/tokens/*.json */" ++ "\n" ++
    "/* Do not edit manually. Run: node scripts/generate.js */" ++ "\n" ++
    ("/* Generated: " ++ today ++ " */\n") ++ "\n"

/-- Everything of the assembled stylesheet after the header comments; a
function of the flags and the generator results only. -/
def assembleBody (oklchEnabled modernEnabled : Bool)
    (gens : List (String × GenResult)) : String :=
  joinNL (bodySections oklchEnabled modernEnabled gens)

/-- Unfolding `join('\n')` over a cons cell with a non-empty tail. -/
theorem joinNL_cons_of_ne (s : String) (rest : List String) (h : rest ≠ []) :
    joinNL (s :: rest) = s ++ "\n" ++ joinNL rest := by
  cases rest with
  | nil => exact absurd rfl h
  | cons t r => rfl

/-- The body section list always starts with the `:root` block. -/
theorem bodySections_ne_nil (oklchEnabled modernEnabled : Bool)
    (gens : List (String × GenResult)) :
    bodySections oklchEnabled modernEnabled gens ≠ [] := by
  simp [bodySections]

/-- C4 counterexample: with identical token inputs (here: no generator
output) and identical flags — shown for both flags off and both flags
on — two invocations of the pipeline on different dates produce different
stylesheet text, because `assemble` embeds
`new Date().toISOString().split('T')[0]` in the generated-on header
comment.  The output is therefore not a function of the token sources and
the two flags alone. -/
theorem assemble_output_depends_on_date :
    assemble false false "2025-01-01" [] ≠ assemble false false "2025-01-02" [] ∧
    assemble true true "2025-01-01" [] ≠ assemble true true "2025-01-02" [] := by
  refine ⟨?_, ?_⟩ <;> decide

/-- C4 amended: for every configuration of the two generation flags, the
stylesheet text is a deterministic function of the token inputs, the
flags, and the invocation date; the date influences only the fixed
generated-on header line — the whole output factors as a date-only header
followed by a body that does not depend on the date. -/
theorem assemble_deterministic_given_date (oklchEnabled modernEnabled : Bool)
    (today : String) (gens : List (String × GenResult)) :
    assemble oklchEnabled modernEnabled today gens
      = assembleDateHeader today ++ assembleBody oklchEnabled modernEnabled gens := by
  unfold assemble assembleBody assembleDateHeader
  rw [joinNL_cons_of_ne _ _ (by simp), joinNL_cons_of_ne _ _ (by simp),
      joinNL_cons_of_ne _ _ (bodySections_ne_nil oklchEnabled modernEnabled gens)]
  simp only [String.append_assoc]

/-! ## OKLCH color conversion (C7 and C8)

The float arithmetic of the conversion pipeline is modelled in exact real
arithmetic; the decisions proved here (the achromatic cutoff for white, the
alpha-suffix condition) hold with margins vastly larger than double-precision
rounding error. -/

/-- One hexadecimal digit of `parseInt`'s radix-16 alphabet. -/
def hexDigit? (c : Char) : Option Nat :=
  if '0' ≤ c ∧ c ≤ '9' then some (c.toNat - '0'.toNat)
  else if 'a' ≤ c ∧ c ≤ 'f' then some (c.toNat - 'a'.toNat + 10)
  else if 'A' ≤ c ∧ c ≤ 'F' then some (c.toNat - 'A'.toNat + 10)
  else none

/-- `parseInt(s, 16)` as used on the channel slices of `parseHex`: skip
leading whitespace, optional sign, optional `0x`/`0X` prefix, then the
maximal run of hex digits (at least one required; trailing junk is
ignored); `none` models `NaN`. -/
def parseInt16 (s : String) : Option Int :=
  let cs := s.data.dropWhile isJsWS
  let signed : Int × List Char :=
    match cs with
    | '-' :: rest => (-1, rest)
    | '+' :: rest => (1, rest)
    | _ => (1, cs)
  let cs2 :=
    match signed.2 with
    | '0' :: 'x' :: rest => rest
    | '0' :: 'X' :: rest => rest
    | _ => signed.2
  let digits := cs2.takeWhile fun c => (hexDigit? c).isSome
  if digits = [] then none
  else some (signed.1 * digits.foldl (fun acc c => 16 * acc + ((hexDigit? c).getD 0 : Int)) 0)

/-- JavaScript `String.prototype.trim()`. -/
def jsTrim (s : String) : String :=
  String.mk (((s.data.dropWhile isJsWS).reverse.dropWhile isJsWS).reverse)

/-- `parseHex(hex)` (source lines 923–952): trim, require a leading `#`,
split the remaining 3/4/6/8 hex digits into channel bytes (short forms
double each digit; alpha defaults to 255); `none` when the length is
unsupported or any channel parses to NaN. -/
def parseHex (hex : String) : Option (Int × Int × Int × Int) :=
  match (jsTrim hex).data with
  | '#' :: rest =>
    match rest with
    | [a, b, c] => do
      let r ← parseInt16 (String.mk [a, a])
      let g ← parseInt16 (String.mk [b, b])
      let bl ← parseInt16 (String.mk [c, c])
      some (r, g, bl, 255)
    | [a, b, c, d] => do
      let r ← parseInt16 (String.mk [a, a])
      let g ← parseInt16 (String.mk [b, b])
      let bl ← parseInt16 (String.mk [c, c])
      let al ← parseInt16 (String.mk [d, d])
      some (r, g, bl, al)
    | [a, b, c, d, e, f] => do
      let r ← parseInt16 (String.mk [a, b])
      let g ← parseInt16 (String.mk [c, d])
      let bl ← parseInt16 (String.mk [e, f])
      some (r, g, bl, 255)
    | [a, b, c, d, e, f, g2, h2] => do
      let r ← parseInt16 (String.mk [a, b])
      let g ← parseInt16 (String.mk [c, d])
      let bl ← parseInt16 (String.mk [e, f])
      let al ← parseInt16 (String.mk [g2, h2])
      some (r, g, bl, al)
    | _ => none
  | _ => none

noncomputable section

/-- `Math.round(x)` is `⌊x + 1/2⌋`; the helper `round(num, places)`
(source lines 1057–1060) is `Math.round(num * 10^places) / 10^places`. -/
noncomputable def jsRound (x : ℝ) (places : ℕ) : ℝ :=
  (⌊x * 10 ^ places + 1 / 2⌋ : ℤ) / 10 ^ places

/-- The sRGB inverse companding `srgbToLinear` (source lines 957–959). -/
noncomputable def srgbToLinear (c : ℝ) : ℝ :=
  if c ≤ 0.04045 then c / 12.92 else ((c + 0.055) / 1.055) ^ (2.4 : ℝ)

/-- `linearRGBToXYZ` (source lines 965–970). -/
noncomputable def linearRGBToXYZ (lr lg lb : ℝ) : ℝ × ℝ × ℝ :=
  (0.4124564 * lr + 0.3575761 * lg + 0.1804375 * lb,
    0.2126729 * lr + 0.7151522 * lg + 0.0721750 * lb,
    0.0193339 * lr + 0.1191920 * lg + 0.9503041 * lb)

/-- `Math.cbrt`. -/
noncomputable def jsCbrt (x : ℝ) : ℝ :=
  if 0 ≤ x then x ^ ((1 : ℝ) / 3) else -((-x) ^ ((1 : ℝ) / 3))

/-- `xyzToOKLab` (source lines 976–993): cone response, cube root,
then the OKLab mixing matrix. -/
noncomputable def xyzToOKLab (x y z : ℝ) : ℝ × ℝ × ℝ :=
  let l := jsCbrt (0.8189330101 * x + 0.3618667424 * y - 0.1288597137 * z)
  let m := jsCbrt (0.0329845436 * x + 0.9293118715 * y + 0.0361456387 * z)
  let s := jsCbrt (0.0482003018 * x + 0.2643662691 * y + 0.6338517070 * z)
  (0.2104542553 * l + 0.7936177850 * m - 0.0040720468 * s,
    1.9779984951 * l - 2.4285922050 * m + 0.4505937099 * s,
    0.0259040371 * l + 0.7827717662 * m - 0.8086757660 * s)

/-- `Math.atan2(y, x)` (negative-zero subtleties aside, which cannot be
expressed over ℝ). -/
noncomputable def jsAtan2 (y x : ℝ) : ℝ :=
  if 0 < x then Real.arctan (y / x)
  else if x < 0 then
    (if 0 ≤ y then Real.arctan (y / x) + Real.pi else Real.arctan (y / x) - Real.pi)
  else if 0 < y then Real.pi / 2
  else if y < 0 then -(Real.pi / 2)
  else 0

/-- `oklabToOKLCH` (source lines 999–1004). -/
noncomputable def oklabToOKLCH (L a b : ℝ) : ℝ × ℝ × ℝ :=
  (L, Real.sqrt (a * a + b * b),
    if jsAtan2 b a * (180 / Real.pi) < 0 then jsAtan2 b a * (180 / Real.pi) + 360
    else jsAtan2 b a * (180 / Real.pi))

/-- The numeric core of `hexToOklch` on the channel bytes: normalize,
linearize, convert to XYZ, OKLab, OKLCH. -/
noncomputable def pipelineLCH (r8 g8 b8 : Int) : ℝ × ℝ × ℝ :=
  let lr := srgbToLinear ((r8 : ℝ) / 255)
  let lg := srgbToLinear ((g8 : ℝ) / 255)
  let lb := srgbToLinear ((b8 : ℝ) / 255)
  let xyz := linearRGBToXYZ lr lg lb
  let lab := xyzToOKLab xyz.1 xyz.2.1 xyz.2.2
  oklabToOKLCH lab.1 lab.2.1 lab.2.2

/-- One formatted component of the output `oklch(...)` string: either the
decimal rendering of a rounded number, or a literal token (`0`, `none`). -/
inductive OklchComponent where
  | num : ℝ → OklchComponent
  | lit : String → OklchComponent

/-- The structural content of the `hexToOklch` output string
`oklch(<lpct>% <chroma> <hue>[ / <alphaSuffix>])`. -/
structure OklchParts where
  lpct : ℝ
  chroma : OklchComponent
  hue : OklchComponent
  alphaSuffix : Option ℝ

/-- The formatting logic of `hexToOklch` (source lines 1011–1052):
Lightness as a percentage rounded to 2 decimals, Chroma rounded to 4, Hue
to 1; if the rounded chroma is below 0.0005 the chroma component is the
literal `0` and the hue the literal `none`; the `/ alpha` suffix (alpha
rounded to 2 decimals) is present iff the raw alpha `a8 / 255` is less
than 1 — the unrounded value decides, the rounded value is displayed. -/
noncomputable def mkOklchParts (r8 g8 b8 a8 : Int) : OklchParts :=
  let lch := pipelineLCH r8 g8 b8
  let cround := jsRound lch.2.1 4
  { lpct := jsRound (lch.1 * 100) 2
    chroma := if cround < 0.0005 then .lit "0" else .num cround
    hue := if cround < 0.0005 then .lit "none" else .num (jsRound lch.2.2 1)
    alphaSuffix :=
      if (a8 : ℝ) / 255 < 1 then some (jsRound ((a8 : ℝ) / 255) 2) else none }

/-- `hexToOklch` up to decimal rendering: parse, convert, format. -/
noncomputable def hexToOklchParts (hex : String) : Option OklchParts :=
  (parseHex hex).map fun p => mkOklchParts p.1 p.2.1 p.2.2.1 p.2.2.2

end

theorem jsCbrt_bounds (x q r : ℝ) (hq : 0 ≤ q) (hr : 0 ≤ r)
    (h1 : q ^ 3 ≤ x) (h2 : x ≤ r ^ 3) : q ≤ jsCbrt x ∧ jsCbrt x ≤ r := by
  have hx : 0 ≤ x := le_trans (by positivity) h1
  unfold jsCbrt
  rw [if_pos hx]
  have hq3 : ((q ^ (3 : ℕ) : ℝ)) ^ ((1 : ℝ) / 3) = q := by
    rw [← Real.rpow_natCast q 3, ← Real.rpow_mul hq]
    norm_num
  have hr3 : ((r ^ (3 : ℕ) : ℝ)) ^ ((1 : ℝ) / 3) = r := by
    rw [← Real.rpow_natCast r 3, ← Real.rpow_mul hr]
    norm_num
  constructor
  · calc q = (q ^ 3) ^ ((1 : ℝ) / 3) := hq3.symm
    _ ≤ x ^ ((1 : ℝ) / 3) := Real.rpow_le_rpow (by positivity) h1 (by norm_num)
  · calc x ^ ((1 : ℝ) / 3) ≤ (r ^ 3) ^ ((1 : ℝ) / 3) :=
        Real.rpow_le_rpow hx h2 (by norm_num)
    _ = r := hr3

/-- White's perceptual chroma in the modelled pipeline is below 0.00045,
so its 4-decimal rounding is below the 0.0005 achromatic cutoff. -/
theorem white_chroma_small :
    0 ≤ (pipelineLCH 255 255 255).2.1 ∧ (pipelineLCH 255 255 255).2.1 < 0.00045 := by
  have hone : ((255 : Int) : ℝ) / 255 = 1 := by norm_num
  have hlin : srgbToLinear 1 = 1 := by
    unfold srgbToLinear
    rw [if_neg (by norm_num)]
    have h1 : ((1 : ℝ) + 0.055) / 1.055 = 1 := by norm_num
    rw [h1, Real.one_rpow]
  have hl := jsCbrt_bounds (0.8189330101 * (0.4124564 * 1 + 0.3575761 * 1 + 0.1804375 * 1)
      + 0.3618667424 * (0.2126729 * 1 + 0.7151522 * 1 + 0.0721750 * 1)
      - 0.1288597137 * (0.0193339 * 1 + 0.1191920 * 1 + 0.9503041 * 1))
    0.9999772376 0.9999772377 (by norm_num) (by norm_num) (by norm_num) (by norm_num)
  have hm := jsCbrt_bounds (0.0329845436 * (0.4124564 * 1 + 0.3575761 * 1 + 0.1804375 * 1)
      + 0.9293118715 * (0.2126729 * 1 + 0.7151522 * 1 + 0.0721750 * 1)
      + 0.0361456387 * (0.0193339 * 1 + 0.1191920 * 1 + 0.9503041 * 1))
    1.0000064130 1.0000064131 (by norm_num) (by norm_num) (by norm_num) (by norm_num)
  have hs := jsCbrt_bounds (0.0482003018 * (0.4124564 * 1 + 0.3575761 * 1 + 0.1804375 * 1)
      + 0.2643662691 * (0.2126729 * 1 + 0.7151522 * 1 + 0.0721750 * 1)
      + 0.6338517070 * (0.0193339 * 1 + 0.1191920 * 1 + 0.9503041 * 1))
    1.0001119842 1.0001119843 (by norm_num) (by norm_num) (by norm_num) (by norm_num)
  obtain ⟨hl1, hl2⟩ := hl
  obtain ⟨hm1, hm2⟩ := hm
  obtain ⟨hs1, hs2⟩ := hs
  have hshape : (pipelineLCH 255 255 255).2.1
      = Real.sqrt
          ((1.9779984951 * jsCbrt (0.8189330101 * (0.4124564 * 1 + 0.3575761 * 1 + 0.1804375 * 1)
              + 0.3618667424 * (0.2126729 * 1 + 0.7151522 * 1 + 0.0721750 * 1)
              - 0.1288597137 * (0.0193339 * 1 + 0.1191920 * 1 + 0.9503041 * 1))
            - 2.4285922050 * jsCbrt (0.0329845436 * (0.4124564 * 1 + 0.3575761 * 1 + 0.1804375 * 1)
              + 0.9293118715 * (0.2126729 * 1 + 0.7151522 * 1 + 0.0721750 * 1)
              + 0.0361456387 * (0.0193339 * 1 + 0.1191920 * 1 + 0.9503041 * 1))
            + 0.4505937099 * jsCbrt (0.0482003018 * (0.4124564 * 1 + 0.3575761 * 1 + 0.1804375 * 1)
              + 0.2643662691 * (0.2126729 * 1 + 0.7151522 * 1 + 0.0721750 * 1)
              + 0.6338517070 * (0.0193339 * 1 + 0.1191920 * 1 + 0.9503041 * 1)))
          * (1.9779984951 * jsCbrt (0.8189330101 * (0.4124564 * 1 + 0.3575761 * 1 + 0.1804375 * 1)
              + 0.3618667424 * (0.2126729 * 1 + 0.7151522 * 1 + 0.0721750 * 1)
              - 0.1288597137 * (0.0193339 * 1 + 0.1191920 * 1 + 0.9503041 * 1))
            - 2.4285922050 * jsCbrt (0.0329845436 * (0.4124564 * 1 + 0.3575761 * 1 + 0.1804375 * 1)
              + 0.9293118715 * (0.2126729 * 1 + 0.7151522 * 1 + 0.0721750 * 1)
              + 0.0361456387 * (0.0193339 * 1 + 0.1191920 * 1 + 0.9503041 * 1))
            + 0.4505937099 * jsCbrt (0.0482003018 * (0.4124564 * 1 + 0.3575761 * 1 + 0.1804375 * 1)
              + 0.2643662691 * (0.2126729 * 1 + 0.7151522 * 1 + 0.0721750 * 1)
              + 0.6338517070 * (0.0193339 * 1 + 0.1191920 * 1 + 0.9503041 * 1)))
          + (0.0259040371 * jsCbrt (0.8189330101 * (0.4124564 * 1 + 0.3575761 * 1 + 0.1804375 * 1)
              + 0.3618667424 * (0.2126729 * 1 + 0.7151522 * 1 + 0.0721750 * 1)
              - 0.1288597137 * (0.0193339 * 1 + 0.1191920 * 1 + 0.9503041 * 1))
            + 0.7827717662 * jsCbrt (0.0329845436 * (0.4124564 * 1 + 0.3575761 * 1 + 0.1804375 * 1)
              + 0.9293118715 * (0.2126729 * 1 + 0.7151522 * 1 + 0.0721750 * 1)
              + 0.0361456387 * (0.0193339 * 1 + 0.1191920 * 1 + 0.9503041 * 1))
            - 0.8086757660 * jsCbrt (0.0482003018 * (0.4124564 * 1 + 0.3575761 * 1 + 0.1804375 * 1)
              + 0.2643662691 * (0.2126729 * 1 + 0.7151522 * 1 + 0.0721750 * 1)
              + 0.6338517070 * (0.0193339 * 1 + 0.1191920 * 1 + 0.9503041 * 1)))
          * (0.0259040371 * jsCbrt (0.8189330101 * (0.4124564 * 1 + 0.3575761 * 1 + 0.1804375 * 1)
              + 0.3618667424 * (0.2126729 * 1 + 0.7151522 * 1 + 0.0721750 * 1)
              - 0.1288597137 * (0.0193339 * 1 + 0.1191920 * 1 + 0.9503041 * 1))
            + 0.7827717662 * jsCbrt (0.0329845436 * (0.4124564 * 1 + 0.3575761 * 1 + 0.1804375 * 1)
              + 0.9293118715 * (0.2126729 * 1 + 0.7151522 * 1 + 0.0721750 * 1)
              + 0.0361456387 * (0.0193339 * 1 + 0.1191920 * 1 + 0.9503041 * 1))
            - 0.8086757660 * jsCbrt (0.0482003018 * (0.4124564 * 1 + 0.3575761 * 1 + 0.1804375 * 1)
              + 0.2643662691 * (0.2126729 * 1 + 0.7151522 * 1 + 0.0721750 * 1)
              + 0.6338517070 * (0.0193339 * 1 + 0.1191920 * 1 + 0.9503041 * 1)))) := by
    simp only [pipelineLCH, hone, hlin, linearRGBToXYZ, xyzToOKLab, oklabToOKLCH]
  constructor
  · rw [hshape]
    exact Real.sqrt_nonneg _
  · rw [hshape]
    rw [show (0.00045 : ℝ) = Real.sqrt (0.00045 ^ 2) by
      rw [Real.sqrt_sq (by norm_num)]]
    apply Real.sqrt_lt_sqrt
    · nlinarith [hl1, hl2, hm1, hm2, hs1, hs2]
    · nlinarith [hl1, hl2, hm1, hm2, hs1, hs2]

/-- C7: converting `#FFFFFF` yields a chroma component that is the literal
`0` and a hue component that is the literal token `none`, because white's
computed chroma, rounded to 4 decimals, falls below the 0.0005 achromatic
cutoff. -/
theorem white_converts_to_achromatic :
    (hexToOklchParts "#FFFFFF").map (fun p => (p.chroma, p.hue))
      = some (.lit "0", .lit "none") ∧
    jsRound (pipelineLCH 255 255 255).2.1 4 < 0.0005 := by
  obtain ⟨hC0, hC⟩ := white_chroma_small
  have hround : jsRound (pipelineLCH 255 255 255).2.1 4 < 0.0005 := by
    unfold jsRound
    have hfl : ⌊(pipelineLCH 255 255 255).2.1 * 10 ^ 4 + 1 / 2⌋ < (5 : ℤ) := by
      rw [Int.floor_lt]
      push_cast
      nlinarith [hC0, hC]
    have hfl4 : ⌊(pipelineLCH 255 255 255).2.1 * 10 ^ 4 + 1 / 2⌋ ≤ (4 : ℤ) := by omega
    have hcast : ((⌊(pipelineLCH 255 255 255).2.1 * 10 ^ 4 + 1 / 2⌋ : ℤ) : ℝ) ≤ 4 := by
      exact_mod_cast hfl4
    have h10 : (0 : ℝ) < 10 ^ 4 := by norm_num
    rw [div_lt_iff₀ h10]
    nlinarith [hcast]
  refine ⟨?_, hround⟩
  have hp : parseHex "#FFFFFF" = some (255, 255, 255, 255) := rfl
  simp only [hexToOklchParts, hp, Option.map_some']
  simp only [mkOklchParts]
  rw [if_pos hround, if_pos hround]

/-- C8 counterexample: `#FFFFFFFE` has alpha byte 254; the rounded alpha
`round(254/255, 2)` equals 1, yet the output carries the `/ 1` suffix —
the code tests the unrounded alpha against 1 before rounding, so the claim
"when the rounded alpha equals 1 the suffix is omitted" fails here. -/
theorem alpha_suffix_present_at_rounded_one :
    jsRound ((254 : ℝ) / 255) 2 = 1 ∧
    (hexToOklchParts "#FFFFFFFE").map (fun p => p.alphaSuffix) = some (some 1) := by
  have h254 : jsRound ((254 : ℝ) / 255) 2 = 1 := by
    unfold jsRound
    have hfl : ⌊(254 : ℝ) / 255 * 10 ^ 2 + 1 / 2⌋ = (100 : ℤ) := by
      rw [Int.floor_eq_iff]
      norm_num
    rw [hfl]
    norm_num
  refine ⟨h254, ?_⟩
  have hp : parseHex "#FFFFFFFE" = some (255, 255, 255, 254) := rfl
  simp only [hexToOklchParts, hp, Option.map_some']
  simp only [mkOklchParts]
  have hcast : (((254 : Int)) : ℝ) = (254 : ℝ) := by norm_num
  rw [if_pos (by rw [hcast]; norm_num), hcast, h254]

/-- C8 amended: for every parseable hex input, the output carries the
`/ <alpha>` suffix exactly when the UNROUNDED source alpha `a/255` is
below 1, i.e. exactly when the alpha byte is below 255; the suffix value
is the alpha rounded to 2 decimals (which can itself round to 1). -/
theorem alpha_suffix_iff_alpha_byte_lt_255 (s : String) (r g b a : Int)
    (h : parseHex s = some (r, g, b, a)) :
    (hexToOklchParts s).map (fun p => p.alphaSuffix.isSome) = some (decide (a < 255)) ∧
    ((a : ℝ) / 255 < 1 →
      (hexToOklchParts s).map (fun p => p.alphaSuffix)
        = some (some (jsRound ((a : ℝ) / 255) 2))) := by
  have key : ((a : ℝ) / 255 < 1) ↔ (a < 255) := by
    rw [div_lt_one (by norm_num : (0 : ℝ) < 255)]
    exact_mod_cast Iff.rfl
  constructor
  · simp only [hexToOklchParts, h, Option.map_some']
    simp only [mkOklchParts]
    by_cases hlt : (a : ℝ) / 255 < 1
    · rw [if_pos hlt]
      simp [key.mp hlt]
    · rw [if_neg hlt]
      simp [key.not.mp hlt]
  · intro hlt
    simp only [hexToOklchParts, h, Option.map_some']
    simp only [mkOklchParts]
    rw [if_pos hlt]

theorem alpha_suffix_iff_alpha_byte_lt_255_witness :
    parseHex "#00000080" = some (0, 0, 0, 128) ∧
    (hexToOklchParts "#00000080").map (fun p => p.alphaSuffix.isSome) = some true := by
  refine ⟨rfl, ?_⟩
  have h := (alpha_suffix_iff_alpha_byte_lt_255 "#00000080" 0 0 0 128 rfl).1
  simpa using h

end Airtime
